import Mathlib

set_option allowUnsafeReducibility true in
attribute [semireducible] Rat.add Rat.mul Rat.inv Rat.sub Rat.div Rat.ofScientific

set_option maxRecDepth 40000

/-!
Verification development for the stock-indicator repository.

The indicator library (src/indicators/*.py) and the decision engine
(src/analysis_engine.py) are shallowly embedded below.  Numeric values are
modelled as exact rationals (`ℚ`); Python `None` / missing data is modelled
with `Option`.  The pandas primitives used by the source (`rolling`, `ewm`,
`diff`, `where`) are translated at their use sites with the documented pandas
semantics:

* `Series.diff()` puts a missing value at index 0;
* `delta.where(delta > 0, 0.0)` replaces every position where the condition
  is false — including the position where `delta` is missing (a NaN compares
  false) — by `0.0`;
* `rolling(window=w, min_periods=w)` is defined exactly on full windows;
* `ewm(com=n-1, min_periods=n)` (adjust left at its default `True`) computes
  the weighted mean `S_i / W_i` with `S_i = (1-α)·S_{i-1} + x_i`,
  `W_i = (1-α)·W_{i-1} + 1`, `α = 1/n`, masked while fewer than `n`
  observations have been seen;
* `ewm(span=s, adjust=False, min_periods=s)` seeds on the first observation
  and then follows `y_i = (1-α)·y_{i-1} + α·x_i` with `α = 2/(s+1)`, masked
  while fewer than `s` observations have been seen (the inputs it receives
  here only ever have missing values in a leading prefix).
-/

namespace StockIndicator

/-- A Python value as it occurs in the data handled by this program: a number
(modelled exactly as a rational), a string, or `None`. -/
inductive JVal where
  | num (q : ℚ)
  | str (s : String)
  | null
deriving DecidableEq

/-! ## Moving average — src/indicators/moving_average.py -/

/-- The trailing window of length `window` ending at index `i` (the window pandas
`rolling(window)` aggregates at row `i`). -/
def windowSlice (data : List (Option ℚ)) (window i : ℕ) : List (Option ℚ) :=
  (data.drop (i + 1 - window)).take window

/-- `rolling(window, min_periods=window).mean()` at row `i`: defined only when the
full window is available and free of missing values. -/
def rollingMeanAt (data : List (Option ℚ)) (window i : ℕ) : Option ℚ :=
  if i + 1 < window then none
  else
    match (windowSlice data window i).mapM id with
    | none => none
    | some ws => if ws.length = window then some (ws.sum / (window : ℚ)) else none

/-- `calculate_moving_average` (moving_average.py): all-`None` when the data is
shorter than the window, otherwise the full-window rolling mean. -/
def calculate_moving_average (data : List (Option ℚ)) (window : ℕ) : List (Option ℚ) :=
  if data = [] ∨ data.length < window then List.replicate data.length none
  else (List.range data.length).map (rollingMeanAt data window)

/-! ## RSI — src/indicators/rsi.py -/

/-- `s.diff()` without its leading missing entry: `diffs[i] = x[i+1] - x[i]`. -/
def pyDiffs (data : List ℚ) : List ℚ :=
  match data with
  | [] => []
  | _ :: tail => List.zipWith (fun a b => a - b) tail data

/-- `delta.where(delta > 0, 0.0)` : the gain series.  Index 0 is `0` because the
missing first difference compares false against `0` and is replaced. -/
def rsiGains (data : List ℚ) : List ℚ :=
  match data with
  | [] => []
  | _ :: _ => 0 :: (pyDiffs data).map (fun d => max d 0)

/-- `-delta.where(delta < 0, 0.0)` : the loss series (stored positive). -/
def rsiLosses (data : List ℚ) : List ℚ :=
  match data with
  | [] => []
  | _ :: _ => 0 :: (pyDiffs data).map (fun d => max (-d) 0)

/-- Core loop of `ewm(...).mean()` with `adjust=True` (the pandas default, used
by rsi.py): carries the decayed numerator `s` and weight sum `w`. -/
def ewmAdjTrueAux (α : ℚ) : List ℚ → ℚ → ℚ → List ℚ
  | [], _, _ => []
  | x :: rest, s, w =>
      let s' := (1 - α) * s + x
      let w' := (1 - α) * w + 1
      (s' / w') :: ewmAdjTrueAux α rest s' w'

/-- `Series.ewm(com = 1/α - 1).mean()` with `adjust=True` on a series without
missing values. -/
def ewmAdjTrue (α : ℚ) (xs : List ℚ) : List ℚ :=
  ewmAdjTrueAux α xs 0 0

/-- Apply `min_periods = minp` masking to a series without missing values:
entries before index `minp - 1` become missing. -/
def maskFrom (minp i : ℕ) : List ℚ → List (Option ℚ)
  | [] => []
  | x :: rest => (if i + 1 < minp then none else some x) :: maskFrom minp (i + 1) rest

/-- `min_periods` masking from index 0. -/
def maskMinPeriods (minp : ℕ) (xs : List ℚ) : List (Option ℚ) :=
  maskFrom minp 0 xs

/-- `gain.ewm(com=period-1, min_periods=period).mean()` of rsi.py (`adjust`
left at its default `True`; the source comment records that `adjust=False`
was removed). -/
def rsiAvgGain (data : List ℚ) (period : ℕ) : List (Option ℚ) :=
  maskMinPeriods period (ewmAdjTrue (1 / (period : ℚ)) (rsiGains data))

/-- `loss.ewm(com=period-1, min_periods=period).mean()` of rsi.py. -/
def rsiAvgLoss (data : List ℚ) (period : ℕ) : List (Option ℚ) :=
  maskMinPeriods period (ewmAdjTrue (1 / (period : ℚ)) (rsiLosses data))

/-- The RSI value from average gain and loss, with the two overrides of rsi.py
applied in source order (`rsi[avg_loss == 0] = 100` first, then
`rsi[avg_gain == 0] = 0`, so a zero gain wins). -/
def rsiValue (g l : ℚ) : ℚ :=
  if g = 0 then 0 else if l = 0 then 100 else 100 - 100 / (1 + g / l)

/-- `calculate_rsi` (rsi.py) on a numeric close list (the only shape this
repository feeds it: the engine validates closes before calling). -/
def calculate_rsi (data : List ℚ) (period : ℕ) : List (Option ℚ) :=
  if data = [] ∨ data.length ≤ period then List.replicate data.length none
  else
    List.zipWith
      (fun g l =>
        match g, l with
        | some gv, some lv => some (rsiValue gv lv)
        | _, _ => none)
      (rsiAvgGain data period) (rsiAvgLoss data period)

/-! ## Bollinger bands — src/indicators/bollinger_bands.py

`rolling(...).std()` takes a square root, which has no exact rational value;
the embedding is parameterised by the square-root function `sqrtFn` (every
theorem below holds for an arbitrary `sqrtFn`, and no claim depends on the
numeric value of a standard deviation). -/

/-- Sample variance (denominator `period - 1`, pandas `ddof=1`) of a full
window. -/
def sampleVar (ws : List ℚ) (period : ℕ) : ℚ :=
  let m := ws.sum / (period : ℚ)
  (ws.map (fun x => (x - m) ^ 2)).sum / ((period : ℚ) - 1)

/-- `rolling(window=period, min_periods=period).std()` at row `i`; a window of
size 1 has an undefined (NaN) sample standard deviation. -/
def rollingStdAt (sqrtFn : ℚ → ℚ) (data : List (Option ℚ)) (period i : ℕ) : Option ℚ :=
  if period = 1 then none
  else if i + 1 < period then none
  else
    match (windowSlice data period i).mapM id with
    | none => none
    | some ws => if ws.length = period then some (sqrtFn (sampleVar ws period)) else none

/-- `calculate_bollinger_bands` (bollinger_bands.py): middle, upper and lower
bands.  `k` is the standard-deviation multiplier. -/
def calculate_bollinger_bands (sqrtFn : ℚ → ℚ) (data : List (Option ℚ)) (period : ℕ) (k : ℚ) :
    List (Option ℚ) × List (Option ℚ) × List (Option ℚ) :=
  if data.length < period then
    (List.replicate data.length none, List.replicate data.length none,
      List.replicate data.length none)
  else
    let middle := (List.range data.length).map (rollingMeanAt data period)
    let std := (List.range data.length).map (rollingStdAt sqrtFn data period)
    let upper := List.zipWith
      (fun m s =>
        match m, s with
        | some mv, some sv => some (mv + sv * k)
        | _, _ => none) middle std
    let lower := List.zipWith
      (fun m s =>
        match m, s with
        | some mv, some sv => some (mv - sv * k)
        | _, _ => none) middle std
    (middle, upper, lower)

/-! ## MACD — src/indicators/macd.py -/

/-- Recursion of `ewm(span, adjust=False).mean()` after the seed. -/
def emaAdjFalseAux (α : ℚ) : List ℚ → ℚ → List ℚ
  | [], _ => []
  | x :: rest, prev =>
      let y := (1 - α) * prev + α * x
      y :: emaAdjFalseAux α rest y

/-- `ewm(span, adjust=False).mean()` on a series without missing values: the
first observation seeds the recursion. -/
def emaAdjFalse (α : ℚ) : List ℚ → List ℚ
  | [] => []
  | x :: rest => x :: emaAdjFalseAux α rest x

/-- Subtraction of two indicator series (missing wherever either is). -/
def optSub (a b : Option ℚ) : Option ℚ :=
  match a, b with
  | some x, some y => some (x - y)
  | _, _ => none

/-- `prices_series.ewm(span=p, adjust=False, min_periods=p).mean()`. -/
def macdEma (closes : List ℚ) (p : ℕ) : List (Option ℚ) :=
  maskMinPeriods p (emaAdjFalse (2 / ((p : ℚ) + 1)) closes)

/-- `macd_line = short_ema - long_ema`. -/
def macdLineOf (closes : List ℚ) (short_period long_period : ℕ) : List (Option ℚ) :=
  List.zipWith optSub (macdEma closes short_period) (macdEma closes long_period)

/-- `signal_line = macd_line.ewm(span=signal, adjust=False,
min_periods=signal).mean()`: the macd line's missing values form a leading
prefix, which the pandas EWM skips before seeding. -/
def macdSignalOf (closes : List ℚ) (short_period long_period signal_period : ℕ) :
    List (Option ℚ) :=
  let macd_line := macdLineOf closes short_period long_period
  let lead := (macd_line.takeWhile Option.isNone).length
  let vals := (macd_line.drop lead).filterMap id
  List.replicate lead none ++
    maskMinPeriods signal_period (emaAdjFalse (2 / ((signal_period : ℚ) + 1)) vals)

/-- `calculate_macd` (macd.py). -/
def calculate_macd (closes : List ℚ) (short_period long_period signal_period : ℕ) :
    List (Option ℚ) × List (Option ℚ) × List (Option ℚ) :=
  if closes = [] ∨ closes.length < long_period then
    (List.replicate closes.length none, List.replicate closes.length none,
      List.replicate closes.length none)
  else
    (macdLineOf closes short_period long_period,
      macdSignalOf closes short_period long_period signal_period,
      List.zipWith optSub (macdLineOf closes short_period long_period)
        (macdSignalOf closes short_period long_period signal_period))

/-! ## KDJ — src/indicators/kdj.py -/

/-- `high_series.rolling(window=n, min_periods=n).max()` at row `i`, as a plain
rational (the callers below only read it at rows where the window is full). -/
def winMax (l : List ℚ) (n i : ℕ) : ℚ :=
  match (l.drop (i + 1 - n)).take n with
  | [] => 0
  | h :: t => t.foldl max h

/-- `low_series.rolling(window=n, min_periods=n).min()` at row `i`. -/
def winMin (l : List ℚ) (n i : ℕ) : ℚ :=
  match (l.drop (i + 1 - n)).take n with
  | [] => 0
  | h :: t => t.foldl min h

/-- One RSV entry of kdj.py: `prev` is the last element already appended to
`rsv_values` (`none` both for the `None` padding and for the empty list,
matching `i == 0 or rsv_values[-1] is None`). -/
def rsvAt (highs lows closes : List ℚ) (n i : ℕ) (prev : Option ℚ) : ℚ :=
  let hn := winMax highs n i
  let ln := winMin lows n i
  let cn := closes.getD i 0
  if hn = ln then (if i = 0 ∨ prev = none then 0 else prev.getD 0)
  else (cn - ln) / (hn - ln) * 100

/-- The RSV values appended by the loop of kdj.py, starting at index `i` for
`cnt` steps; each step sees the previous appended value.  (From the first
valid index on, every appended value is a number, so the dead
`rsv_values[i] is None` branches of the later K/D loop are not modelled.) -/
def rsvAux (highs lows closes : List ℚ) (n : ℕ) : ℕ → ℕ → Option ℚ → List ℚ
  | _, 0, _ => []
  | i, cnt + 1, prev =>
      let v := rsvAt highs lows closes n i prev
      v :: rsvAux highs lows closes n (i + 1) cnt (some v)

/-- The full `rsv_values` list of kdj.py (`None` padding then the loop). -/
def kdjRsv (highs lows closes : List ℚ) (n : ℕ) : List (Option ℚ) :=
  List.replicate (n - 1) none ++
    (rsvAux highs lows closes n (n - 1) (closes.length - (n - 1)) none).map some

/-- One K- or D-line smoothing step of kdj.py:
`((m-1)/m) * previous + (1/m) * current`. -/
def kdjStep (m : ℕ) (p r : ℚ) : ℚ :=
  (((m : ℚ) - 1) / (m : ℚ)) * p + (1 / (m : ℚ)) * r

/-- The K line values from the first valid index on.  The seed uses the
hardcoded weights `2/3` and `1/3` of kdj.py (independent of `m1`); the
recursion uses `m1`. -/
def kdjKVals (m1 : ℕ) (rs : List ℚ) : List ℚ :=
  match rs with
  | [] => []
  | r :: rest => List.scanl (kdjStep m1) ((2 / 3 : ℚ) * 50 + (1 / 3 : ℚ) * r) rest

/-- The D line values: same shape over the K values, seeded with the hardcoded
weights `2/3` and `1/3`, recursing with `m2`. -/
def kdjDVals (m2 : ℕ) (ks : List ℚ) : List ℚ :=
  match ks with
  | [] => []
  | k :: rest => List.scanl (kdjStep m2) ((2 / 3 : ℚ) * 50 + (1 / 3 : ℚ) * k) rest

/-- `calculate_kdj` (kdj.py). -/
def calculate_kdj (highs lows closes : List ℚ) (n m1 m2 : ℕ) :
    List (Option ℚ) × List (Option ℚ) × List (Option ℚ) :=
  let num := closes.length
  if highs = [] ∨ lows = [] ∨ closes = [] ∨ num < n then
    (List.replicate num none, List.replicate num none, List.replicate num none)
  else
    let rsvVals := rsvAux highs lows closes n (n - 1) (num - (n - 1)) none
    let ks := kdjKVals m1 rsvVals
    let ds := kdjDVals m2 ks
    let js := List.zipWith (fun k d => 3 * k - 2 * d) ks ds
    (List.replicate (n - 1) none ++ ks.map some,
      List.replicate (n - 1) none ++ ds.map some,
      List.replicate (n - 1) none ++ js.map some)

/-! ## Decision engine — src/analysis_engine.py

`AnalysisEngine.generate_signals` is embedded below.  Three library
operations whose values no claim depends on are taken as parameters
(`PyEnv`): date normalisation (`pd.to_datetime(...).dt.strftime(...)`, which
raises on unparsable dates — modelled by `none`), string-to-number coercion
(`pd.to_numeric(errors='coerce')` applied to a string cell), and the square
root inside the Bollinger standard deviation.  A Python exception escaping
`generate_signals` is modelled as result `none`.  The engine's explanation
strings are presentation-only (never read back by the code) and are not
modelled. -/

/-- Parameters for the delegated library primitives (see section comment). -/
structure PyEnv where
  normDate : JVal → Option String
  coerceNum : String → Option ℚ
  sqrtFn : ℚ → ℚ

/-- A bar dictionary from the caller's `stock_data`: a field is `none` when
the key is absent from the dict and `some JVal.null` when it is present with
value `None`. -/
structure BarDict where
  date : Option JVal
  openPrice : Option JVal
  high : Option JVal
  low : Option JVal
  close : Option JVal
  volume : Option JVal
  turnover : Option JVal
  change_pct : Option JVal
deriving DecidableEq

/-- One element of `stock_data`: a bar dict or a non-dict element (the
validation loop checks `isinstance(item, dict)`). -/
inductive StockItem where
  | dict (b : BarDict)
  | notDict
deriving DecidableEq

/-- `key not in item or item[key] is None` for one key. -/
def keyMissing : Option JVal → Bool
  | none => true
  | some JVal.null => true
  | some _ => false

/-- A core OHLCV key is missing. -/
def coreMissing (b : BarDict) : Bool :=
  keyMissing b.date || keyMissing b.openPrice || keyMissing b.high || keyMissing b.low ||
    keyMissing b.close || keyMissing b.volume

/-- Any of the eight required keys is missing. -/
def anyKeyMissing (b : BarDict) : Bool :=
  coreMissing b || keyMissing b.turnover || keyMissing b.change_pct

/-- `item[key] = 0.0` for missing `turnover` / `change_pct` — this writes into
the caller's dict. -/
def fillNonCore (b : BarDict) : BarDict :=
  { b with
    turnover := if keyMissing b.turnover then some (JVal.num 0) else b.turnover,
    change_pct := if keyMissing b.change_pct then some (JVal.num 0) else b.change_pct }

/-- The validation loop of `generate_signals` (analysis_engine.py lines
84-105).  Returns the caller-visible list after the loop (the loop mutates
bar dicts in place when it fills non-core keys), the collected
`validated_stock_data`, and `false` when a parse error broke the loop. -/
def validateItems : List StockItem → List StockItem × List BarDict × Bool
  | [] => ([], [], true)
  | item :: rest =>
    match item with
    | StockItem.notDict => (item :: rest, [], false)
    | StockItem.dict b =>
      if anyKeyMissing b then
        if coreMissing b then (item :: rest, [], false)
        else
          let b' := fillNonCore b
          let out := validateItems rest
          (StockItem.dict b' :: out.1, b' :: out.2.1, out.2.2)
      else
        let out := validateItems rest
        (item :: out.1, b :: out.2.1, out.2.2)

/-! ### Strategy configuration registry — src/strategy_configs.py -/

/-- Per-period RSI thresholds (`bullish_max` / `bearish_min`). -/
structure RsiThresholds where
  bullish_max : ℚ
  bearish_min : ℚ
deriving DecidableEq

/-- The two RSI configuration shapes: the `periods_for_analysis` style used by
the daily config and the single-`period` style used by weekly/monthly. -/
inductive RsiConfig where
  | multi (periods_for_analysis : List ℕ) (thresholds : List (String × RsiThresholds))
  | single (period : ℕ)
deriving DecidableEq

/-- The `moving_averages` sub-config. -/
structure MovingAveragesConfig where
  windows : List ℕ
deriving DecidableEq

/-- The `bollinger_bands` sub-config. -/
structure BollingerConfig where
  period : ℕ
  std_dev_multiplier : ℚ
deriving DecidableEq

/-- The `indicators` record of one strategy config; `none` models an absent
key. -/
structure IndicatorsConfig where
  moving_averages : Option MovingAveragesConfig
  rsi : Option RsiConfig
  bollinger_bands : Option BollingerConfig
deriving DecidableEq

/-- One entry of `STRATEGY_CONFIGS`. -/
structure StrategyConfig where
  description : String
  indicators : IndicatorsConfig
deriving DecidableEq

/-- The `daily` entry of `STRATEGY_CONFIGS` (strategy_configs.py). -/
def dailyStrategy : StrategyConfig :=
  { description := "Next-day outlook based on MA(5,10) and combined RSI(6,12,24) analysis.",
    indicators :=
    { moving_averages := some { windows := [5, 10] },
      rsi := some (RsiConfig.multi [6, 12, 24]
        [("rsi_6", { bullish_max := 25, bearish_min := 75 }),
         ("rsi_12", { bullish_max := 30, bearish_min := 70 }),
         ("rsi_24", { bullish_max := 35, bearish_min := 65 })]),
      bollinger_bands := some { period := 20, std_dev_multiplier := 2 } } }

/-- The `weekly` entry of `STRATEGY_CONFIGS`. -/
def weeklyStrategy : StrategyConfig :=
  { description := "Outlook for the next ~5 trading days based on short-to-medium term indicators.",
    indicators :=
    { moving_averages := some { windows := [10, 20] },
      rsi := some (RsiConfig.single 14),
      bollinger_bands := some { period := 20, std_dev_multiplier := 2 } } }

/-- The `monthly` entry of `STRATEGY_CONFIGS`. -/
def monthlyStrategy : StrategyConfig :=
  { description := "Outlook for the next ~20 trading days based on medium-term indicators.",
    indicators :=
    { moving_averages := some { windows := [20, 60] },
      rsi := some (RsiConfig.single 14),
      bollinger_bands := some { period := 20, std_dev_multiplier := 2 } } }

/-- `STRATEGY_CONFIGS` (strategy_configs.py), verbatim. -/
def STRATEGY_CONFIGS : List (String × StrategyConfig) :=
  [("daily", dailyStrategy), ("weekly", weeklyStrategy), ("monthly", monthlyStrategy)]

/-- `timeframe in STRATEGY_CONFIGS` / `STRATEGY_CONFIGS[timeframe]`. -/
def lookupConfig (tf : String) : Option StrategyConfig :=
  (STRATEGY_CONFIGS.find? (fun q => q.1 == tf)).map (fun q => q.2)

/-! ### Result data model -/

/-- One `{'value': ..., 'sentiment': ...}` entry of `indicator_values`. -/
structure IndEntry where
  value : JVal
  sentiment : String
deriving DecidableEq

/-- One `{'date': ..., 'value': ...}` pair of a historical indicator series. -/
structure HistPoint where
  date : String
  value : Option ℚ
deriving DecidableEq

/-- One enriched historical OHLCV row (analysis_engine.py lines 160-183);
`high`/`low`/`close`/`volume` are numeric by the time the row is built. -/
structure HistOhlcvRow where
  date : String
  openPrice : JVal
  high : ℚ
  low : ℚ
  close : ℚ
  volume : ℚ
  change_pct : JVal
  turnover : JVal
  volume_ratio : JVal
deriving DecidableEq

/-- The `historical_indicators` bundle.  Association lists keep Python's dict
insertion order (for `bb` the order of `historical_indicators_default`, whose
keys the population step overwrites in place). -/
structure HistoricalIndicators where
  ohlcv : List HistOhlcvRow
  ma : List (String × List HistPoint)
  rsi : List (String × List HistPoint)
  bb : List (String × List HistPoint)
  macd : List (String × List HistPoint)
  kdj : List (String × List HistPoint)
deriving DecidableEq

/-- The result dict of `generate_signals` (the presentation-only
`explanation` string is not modelled). -/
structure EngineResult where
  outlook : String
  time_horizon_applied : String
  latest_close : Option ℚ
  indicator_values : List (String × IndEntry)
  config_used : Option IndicatorsConfig
  historical_indicators : HistoricalIndicators
deriving DecidableEq

/-- `historical_indicators_default` (analysis_engine.py lines 64-71). -/
def historical_indicators_default : HistoricalIndicators :=
  { ohlcv := [],
    ma := [("MA5", []), ("MA10", []), ("MA20", [])],
    rsi := [("RSI6", []), ("RSI12", []), ("RSI24", [])],
    bb := [("BB_Upper", []), ("BB_Middle", []), ("BB_Lower", [])],
    macd := [("MACD_Line", []), ("MACD_Signal", []), ("MACD_Hist", [])],
    kdj := [("KDJ_K", []), ("KDJ_D", []), ("KDJ_J", [])] }

/-- Python `str.capitalize()`. -/
def pyCapitalize (s : String) : String :=
  (s.take 1).toUpper ++ (s.drop 1).toLower

/-- `error_return_template` (analysis_engine.py lines 73-78). -/
def errorTemplate (th : String) : EngineResult :=
  { outlook := ("ERROR"), time_horizon_applied := th, latest_close := none,
    indicator_values := [], config_used := none,
    historical_indicators := historical_indicators_default }

/-! ### Data preparation (validation through the historical OHLCV slice) -/

/-- `pd.to_numeric(errors='coerce')` on one cell. -/
def toNumCoerced (env : PyEnv) : JVal → Option ℚ
  | JVal.num q => some q
  | JVal.str s => env.coerceNum s
  | JVal.null => none

/-- A volume cell as a number; a non-numeric volume makes the pandas rolling
mean raise. -/
def volToNum : JVal → Option ℚ
  | JVal.num q => some q
  | _ => none

/-- `volume.rolling(window=5, min_periods=1).mean()` at row `i`. -/
def volMa5At (vols : List ℚ) (i : ℕ) : ℚ :=
  let w := (vols.take (i + 1)).drop (i + 1 - 5)
  w.sum / (w.length : ℚ)

/-- The `volume_ratio` column: `volume / volume_ma5` unless the mean is zero
(falsy), in which case the string `N/A`. -/
def volumeRatioList (vols : List ℚ) : List JVal :=
  (List.range vols.length).map (fun i =>
    let m := volMa5At vols i
    if m ≠ 0 then JVal.num (vols.getD i 0 / m) else JVal.str ("N/A"))

/-- The numeric extract of a validated series that the decision stage works
on. -/
structure PrepData where
  bars : List BarDict
  dates : List String
  highsQ : List ℚ
  lowsQ : List ℚ
  closesQ : List ℚ
  latestClose : ℚ
  volsQ : List ℚ
  histOhlcv : List HistOhlcvRow
deriving DecidableEq

/-- Outcome of the preparation pipeline: an early error return, an uncaught
Python exception, or the prepared data. -/
inductive Prep where
  | err (r : EngineResult)
  | exn
  | ok (p : PrepData)
deriving DecidableEq

/-- The enriched OHLCV rows, one per bar (before the trailing-20 slice). -/
def buildHistRows : List BarDict → List String → List ℚ → List ℚ → List ℚ → List ℚ →
    List JVal → List HistOhlcvRow
  | b :: bs, d :: ds, h :: hs, l :: ls, c :: cs, v :: vs, r :: rs =>
      { date := d, openPrice := b.openPrice.getD JVal.null, high := h, low := l, close := c,
        volume := v, change_pct := b.change_pct.getD JVal.null,
        turnover := b.turnover.getD JVal.null, volume_ratio := r } ::
        buildHistRows bs ds hs ls cs vs rs
  | _, _, _, _, _, _, _ => []

/-- Lines 80-185 of `generate_signals`: empty check, validation (with its
in-place fill), the 20-bar gate, date normalisation, high/low coercion, the
volume ratio column, the close checks, and the trailing-20 OHLCV slice.  The
second component is the caller-visible `stock_data` after the call. -/
def prepareData (env : PyEnv) (stock_data : List StockItem) (timeframe : String) :
    Prep × List StockItem :=
  let th := pyCapitalize timeframe
  if stock_data = [] then
    (Prep.err { errorTemplate th with outlook := ("DATA_FORMAT_ERROR") }, stock_data)
  else
    let v := validateItems stock_data
    let items' := v.1
    let validated := v.2.1
    if v.2.2 = false then
      (Prep.err { errorTemplate th with outlook := ("DATA_FORMAT_ERROR") }, items')
    else if validated.length < 20 then
      (Prep.err { errorTemplate th with outlook := ("INSUFFICIENT_DATA") }, items')
    else
      match (validated.map (fun b => env.normDate (b.date.getD JVal.null))).mapM id with
      | none => (Prep.exn, items')
      | some dates =>
        match (validated.map (fun b => toNumCoerced env (b.high.getD JVal.null))).mapM id,
            (validated.map (fun b => toNumCoerced env (b.low.getD JVal.null))).mapM id with
        | some highsQ, some lowsQ =>
          match (validated.map (fun b => volToNum (b.volume.getD JVal.null))).mapM id with
          | none => (Prep.exn, items')
          | some volsQ =>
            let vr := volumeRatioList volsQ
            let closesJ := validated.map (fun b => b.close.getD JVal.null)
            if closesJ = [] ∨ closesJ.length < 2 then
              (Prep.err { errorTemplate th with outlook := ("DATA_FORMAT_ERROR") }, items')
            else if ¬ (closesJ.all fun c => match c with
                | JVal.num _ => true
                | JVal.null => true
                | JVal.str _ => false) then
              (Prep.err { errorTemplate th with outlook := ("DATA_FORMAT_ERROR") }, items')
            else if closesJ.getLast?.getD JVal.null = JVal.null then
              (Prep.err { errorTemplate th with outlook := ("INSUFFICIENT_DATA") }, items')
            else
              -- Closes are numeric here: validation rejected bars whose close is
              -- missing or None, and the check above rejected strings, so the
              -- default 0 below is never read.
              let closesQ := closesJ.map (fun c => match c with | JVal.num q => q | _ => 0)
              let rows := buildHistRows validated dates highsQ lowsQ closesQ volsQ vr
              (Prep.ok
                { bars := validated, dates := dates, highsQ := highsQ, lowsQ := lowsQ,
                  closesQ := closesQ, latestClose := closesQ.getLast?.getD 0, volsQ := volsQ,
                  histOhlcv := rows.drop (validated.length - 20) }, items')
        | _, _ =>
          (Prep.err { errorTemplate th with outlook := ("DATA_FORMAT_ERROR") }, items')

/-! ### Display indicator set and sentiments -/

/-- Python `round(x, 2)` under exact rational semantics: half-to-even rounding
of `100·x` (binary floating-point representation error is abstracted away). -/
def roundHalfEven (q : ℚ) : ℤ :=
  let f := ⌊q⌋
  let r := q - (f : ℚ)
  if r < 1 / 2 then f
  else if 1 / 2 < r then f + 1
  else if f % 2 = 0 then f else f + 1

/-- `round(x, 2)` of a rational. -/
def pyRound2 (q : ℚ) : ℚ :=
  ((roundHalfEven (q * 100) : ℤ) : ℚ) / 100

/-- `format_val` of analysis_engine.py: numeric values are rounded to two
decimals, everything else becomes the string `N/A`. -/
def format_val : JVal → JVal
  | JVal.num q => JVal.num (pyRound2 q)
  | _ => JVal.str ("N/A")

/-- Python dict assignment `m[k] = v` on an insertion-ordered dict. -/
def dictSet (m : List (String × IndEntry)) (k : String) (v : IndEntry) :
    List (String × IndEntry) :=
  if m.any (fun q => q.1 == k) then m.map (fun q => if q.1 == k then (k, v) else q)
  else m ++ [(k, v)]

/-- Python `m.get(k)` on the same dict. -/
def dictGet (m : List (String × IndEntry)) (k : String) : Option IndEntry :=
  (m.find? (fun q => q.1 == k)).map (fun q => q.2)

/-- A fund-flow record: a dict with the two consumed keys, or a non-dict
element. -/
inductive FFItem where
  | dict (main_net_inflow_amount main_net_inflow_pct : Option JVal)
  | notDict
deriving DecidableEq

/-- The `MainNetInflowAmount` / `MainNetInflowPct` display entries (only the
most recent fund-flow record is consumed). -/
def ffEntries (ff : List FFItem) (m : List (String × IndEntry)) : List (String × IndEntry) :=
  let pair : Option JVal × Option JVal :=
    match ff.getLast? with
    | some (FFItem.dict a q) => (a, q)
    | _ => (none, none)
  dictSet (dictSet m ("MainNetInflowAmount")
      { value := pair.1.getD JVal.null, sentiment := "N/A" })
    ("MainNetInflowPct") { value := pair.2.getD JVal.null, sentiment := "N/A" }

/-- `series[-1] if series and len(series) == n else None`. -/
def latestIfAligned (s : List (Option ℚ)) (n : ℕ) : Option ℚ :=
  if s ≠ [] ∧ s.length = n then s.getLast?.getD none else none

/-- `series[-2] if len(series) > 1 and len(series) == n else None`. -/
def prevIfAligned (s : List (Option ℚ)) (n : ℕ) : Option ℚ :=
  if 1 < s.length ∧ s.length = n then s.getD (s.length - 2) none else none

/-- An optional number as the `value` field of a display entry. -/
def optToJVal : Option ℚ → JVal
  | some q => JVal.num q
  | none => JVal.null

/-- `DISPLAY_MA_WINDOWS`. -/
def DISPLAY_MA_WINDOWS : List ℕ := [5, 10, 20, 50, 100, 200]

/-- The moving-average display sentiment. -/
def maSentiment (latestClose : ℚ) : Option ℚ → String
  | none => "N/A"
  | some m => if latestClose > m then "Bullish" else if latestClose < m then "Bearish"
      else "Neutral"

/-- The display moving-average loop (one `MA_w` entry per display window). -/
def addMAEntries (closesQ : List ℚ) (latestClose : ℚ) (m : List (String × IndEntry)) :
    List (String × IndEntry) :=
  DISPLAY_MA_WINDOWS.foldl (fun acc w =>
    let series := calculate_moving_average (closesQ.map some) w
    let latest := latestIfAligned series closesQ.length
    dictSet acc ("MA_" ++ toString w)
      { value := optToJVal latest, sentiment := maSentiment latestClose latest }) m

/-- `thresholds.get('rsi_<p>', {})` with the 30/70 defaults. -/
def rsiThresholdsFor (ths : List (String × RsiThresholds)) (p : ℕ) : ℚ × ℚ :=
  match (ths.find? (fun t => t.1 == ("rsi_" ++ toString p))).map (fun t => t.2) with
  | some t => (t.bullish_max, t.bearish_min)
  | none => (30, 70)

/-- The RSI display sentiment against the given thresholds. -/
def rsiSentiment (os ob : ℚ) : Option ℚ → String
  | none => "N/A"
  | some v => if v < os then "Oversold" else if v > ob then "Overbought" else "Neutral"

/-- The latest value of the configured single RSI period (weekly/monthly
style). -/
def singleRsiLatest (closesQ : List ℚ) (per : ℕ) : Option ℚ :=
  latestIfAligned (calculate_rsi closesQ per) closesQ.length

/-- The RSI section of the display loop.  `Sum.inl` is one of the two
`CONFIG_ERROR` early returns (missing RSI config / falsy period); `Sum.inr`
carries the updated values plus the single-period data used by
weekly/monthly decisioning. -/
def addRsiEntries (cfg : IndicatorsConfig) (desc : String) (closesQ : List ℚ)
    (m : List (String × IndEntry)) :
    EngineResult ⊕ (List (String × IndEntry) × Option ℕ × Option ℚ) :=
  match cfg.rsi with
  | some (RsiConfig.multi periods ths) =>
    Sum.inr (periods.foldl (fun acc p =>
      let latest := singleRsiLatest closesQ p
      let t := rsiThresholdsFor ths p
      dictSet acc ("RSI_" ++ toString p)
        { value := optToJVal latest, sentiment := rsiSentiment t.1 t.2 latest }) m,
      none, none)
  | some (RsiConfig.single p) =>
    if p ≠ 0 then
      let latest := singleRsiLatest closesQ p
      Sum.inr (dictSet m ("RSI_" ++ toString p)
        { value := optToJVal latest, sentiment := rsiSentiment 30 70 latest }, some p, latest)
    else Sum.inl { errorTemplate desc with outlook := ("CONFIG_ERROR") }
  | none => Sum.inl { errorTemplate desc with outlook := ("CONFIG_ERROR") }

/-- The Bollinger section: entries plus the latest (middle, upper, lower). -/
def addBBEntries (env : PyEnv) (cfg : IndicatorsConfig) (closesQ : List ℚ)
    (m : List (String × IndEntry)) :
    List (String × IndEntry) × Option ℚ × Option ℚ × Option ℚ :=
  match cfg.bollinger_bands with
  | some bb =>
    let out := calculate_bollinger_bands env.sqrtFn (closesQ.map some) bb.period
      bb.std_dev_multiplier
    let mid := latestIfAligned out.1 closesQ.length
    let up := latestIfAligned out.2.1 closesQ.length
    let lo := latestIfAligned out.2.2 closesQ.length
    (dictSet (dictSet (dictSet m
          ("BB_Upper") { value := optToJVal up, sentiment := "Upper Band" })
        ("BB_Middle") { value := optToJVal mid, sentiment := "Middle Band (SMA)" })
      ("BB_Lower") { value := optToJVal lo, sentiment := "Lower Band" }, mid, up, lo)
  | none => (m, none, none, none)

/-- The MACD line sentiment (base zero-line reading refined by crossovers). -/
def macdLineSentiment (lm ls pm ps : Option ℚ) : String :=
  let base : String :=
    match lm with
    | none => "Neutral"
    | some v => if v > 0 then "Positive (Above Zero)"
        else if v < 0 then "Negative (Below Zero)" else "Neutral"
  match lm, ls, pm, ps with
  | some lmv, some lsv, some pmv, some psv =>
    if pmv < psv ∧ lmv > lsv then "Bullish Crossover"
    else if pmv > psv ∧ lmv < lsv then "Bearish Crossover"
    else if lmv > lsv then "Bullish (MACD > Signal)"
    else if lmv < lsv then "Bearish (MACD < Signal)"
    else base
  | some lmv, some lsv, _, _ =>
    if lmv > lsv then "Bullish (MACD > Signal)"
    else if lmv < lsv then "Bearish (MACD < Signal)"
    else base
  | _, _, _, _ => base

/-- The MACD histogram sentiment. -/
def macdHistSentiment (lh ph : Option ℚ) : String :=
  let base : String :=
    match lh with
    | none => "Neutral"
    | some v => if v > 0 then "Positive" else if v < 0 then "Negative" else "Neutral"
  match lh, ph with
  | some l, some q =>
    if l > 0 ∧ q < 0 then "Turned Positive"
    else if l < 0 ∧ q > 0 then "Turned Negative"
    else if l > 0 ∧ l > q then "Increasing Positive"
    else if l > 0 ∧ l < q then "Decreasing Positive"
    else if l < 0 ∧ l < q then "Increasing Negative"
    else if l < 0 ∧ l > q then "Decreasing Negative"
    else base
  | _, _ => base

/-- The MACD section of the display loop (default periods 12, 26, 9). -/
def addMACDEntries (closesQ : List ℚ) (m : List (String × IndEntry)) :
    List (String × IndEntry) :=
  let out := calculate_macd closesQ 12 26 9
  let lm := latestIfAligned out.1 closesQ.length
  let ls := latestIfAligned out.2.1 closesQ.length
  let lh := latestIfAligned out.2.2 closesQ.length
  let pm := prevIfAligned out.1 closesQ.length
  let ps := prevIfAligned out.2.1 closesQ.length
  let ph := prevIfAligned out.2.2 closesQ.length
  dictSet (dictSet (dictSet m
        ("MACD_Line") { value := optToJVal lm, sentiment := macdLineSentiment lm ls pm ps })
      ("MACD_Signal") { value := optToJVal ls, sentiment := "Reference Line" })
    ("MACD_Hist") { value := optToJVal lh, sentiment := macdHistSentiment lh ph }

/-- The K-line sentiment (thresholds 20/80, crossover refinement). -/
def kdjKSentiment (lk ld pk pd : Option ℚ) : String :=
  let base : String :=
    match lk with
    | none => "Neutral"
    | some v => if v < 20 then "Oversold (<20)" else if v > 80 then "Overbought (>80)"
        else "Neutral"
  match lk, ld, pk, pd with
  | some k, some d, some pkv, some pdv =>
    if pkv < pdv ∧ k > d then
      (if k < 30 then "Golden Cross (K > D) - Low" else "Golden Cross (K > D)")
    else if pkv > pdv ∧ k < d then
      (if k > 70 then "Death Cross (K < D) - High" else "Death Cross (K < D)")
    else if base = "Neutral" then
      (if k > d then "K > D" else if k < d then "K < D" else base)
    else base
  | some k, some d, _, _ =>
    if base = "Neutral" then (if k > d then "K > D" else if k < d then "K < D" else base)
    else base
  | _, _, _, _ => base

/-- The D-line sentiment. -/
def kdjDSentiment : Option ℚ → String
  | none => "Neutral"
  | some v => if v < 20 then "Oversold (<20)" else if v > 80 then "Overbought (>80)"
      else "Mid-range"

/-- The J-line sentiment. -/
def kdjJSentiment : Option ℚ → String
  | none => "Neutral"
  | some v =>
    if v < 0 then "Very Oversold (<0)"
    else if v > 100 then "Very Overbought (>100)"
    else if v < 20 then "Oversold Zone (<20)"
    else if v > 80 then "Overbought Zone (>80)"
    else "Neutral"

/-- The KDJ section of the display loop (default periods 9, 3, 3). -/
def addKDJEntries (p : PrepData) (m : List (String × IndEntry)) : List (String × IndEntry) :=
  let out := calculate_kdj p.highsQ p.lowsQ p.closesQ 9 3 3
  let lk := latestIfAligned out.1 p.closesQ.length
  let ld := latestIfAligned out.2.1 p.closesQ.length
  let lj := latestIfAligned out.2.2 p.closesQ.length
  let pk := prevIfAligned out.1 p.closesQ.length
  let pd := prevIfAligned out.2.1 p.closesQ.length
  dictSet (dictSet (dictSet m
        ("KDJ_K") { value := optToJVal lk, sentiment := kdjKSentiment lk ld pk pd })
      ("KDJ_D") { value := optToJVal ld, sentiment := kdjDSentiment ld })
    ("KDJ_J") { value := optToJVal lj, sentiment := kdjJSentiment lj }

/-- The state available after the display loop: the
`calculated_indicator_values` dict, the latest Bollinger triple, and the
single-RSI data. -/
structure CalcState where
  values : List (String × IndEntry)
  bbMiddle : Option ℚ
  bbUpper : Option ℚ
  bbLower : Option ℚ
  singleRsiPeriod : Option ℕ
  singleRsiValue : Option ℚ
deriving DecidableEq

/-- Lines 195-408 of `generate_signals`: fund-flow entries, display MAs,
RSI (possibly a `CONFIG_ERROR` early return), Bollinger, MACD and KDJ. -/
def displayStage (env : PyEnv) (p : PrepData) (ff : List FFItem) (cfg : IndicatorsConfig)
    (desc : String) : EngineResult ⊕ CalcState :=
  let m0 := ffEntries ff []
  let m1 := addMAEntries p.closesQ p.latestClose m0
  match addRsiEntries cfg desc p.closesQ m1 with
  | Sum.inl r => Sum.inl r
  | Sum.inr rsiOut =>
    let bbOut := addBBEntries env cfg p.closesQ rsiOut.1
    let m3 := addMACDEntries p.closesQ bbOut.1
    let m4 := addKDJEntries p m3
    Sum.inr
      { values := m4, bbMiddle := bbOut.2.1, bbUpper := bbOut.2.2.1,
        bbLower := bbOut.2.2.2, singleRsiPeriod := rsiOut.2.1, singleRsiValue := rsiOut.2.2 }

/-! ### Historical indicators, completeness check, core outlook -/

/-- `_get_historical_indicator_data`: the trailing `num` (date, value) pairs,
aligned from the end, in chronological order. -/
def getHistoricalIndicatorData (ind : List (Option ℚ)) (dates : List String) (num : ℕ) :
    List HistPoint :=
  if ind = [] ∨ dates = [] then []
  else
    let cnt := min num (min ind.length dates.length)
    List.zipWith (fun d v => { date := d, value := v })
      (dates.drop (dates.length - cnt)) (ind.drop (ind.length - cnt))

/-- Lines 410-471: the populated `historical_indicators` bundle (each series
recomputed from the same close/high/low lists used for the display values). -/
def histStage (env : PyEnv) (p : PrepData) : HistoricalIndicators :=
  let closesOpt := p.closesQ.map some
  let bbOut := calculate_bollinger_bands env.sqrtFn closesOpt 20 2
  let macdOut := calculate_macd p.closesQ 12 26 9
  let kdjOut := calculate_kdj p.highsQ p.lowsQ p.closesQ 9 3 3
  { ohlcv := p.histOhlcv,
    ma := [("MA5", getHistoricalIndicatorData (calculate_moving_average closesOpt 5) p.dates 20),
      ("MA10", getHistoricalIndicatorData (calculate_moving_average closesOpt 10) p.dates 20),
      ("MA20", getHistoricalIndicatorData (calculate_moving_average closesOpt 20) p.dates 20)],
    rsi := [("RSI6", getHistoricalIndicatorData (calculate_rsi p.closesQ 6) p.dates 20),
      ("RSI12", getHistoricalIndicatorData (calculate_rsi p.closesQ 12) p.dates 20),
      ("RSI24", getHistoricalIndicatorData (calculate_rsi p.closesQ 24) p.dates 20)],
    bb := [("BB_Upper", getHistoricalIndicatorData bbOut.2.1 p.dates 20),
      ("BB_Middle", getHistoricalIndicatorData bbOut.1 p.dates 20),
      ("BB_Lower", getHistoricalIndicatorData bbOut.2.2 p.dates 20)],
    macd := [("MACD_Line", getHistoricalIndicatorData macdOut.1 p.dates 20),
      ("MACD_Signal", getHistoricalIndicatorData macdOut.2.1 p.dates 20),
      ("MACD_Hist", getHistoricalIndicatorData macdOut.2.2 p.dates 20)],
    kdj := [("KDJ_K", getHistoricalIndicatorData kdjOut.1 p.dates 20),
      ("KDJ_D", getHistoricalIndicatorData kdjOut.2.1 p.dates 20),
      ("KDJ_J", getHistoricalIndicatorData kdjOut.2.2 p.dates 20)] }

/-- Lines 473-498: the essential-indicator completeness check.  (Note: a
strategy MA window outside `DISPLAY_MA_WINDOWS` — the monthly 60 — has no
`MA_<w>` entry, so it always counts as missing.) -/
def essentialsMissing (tf : String) (cfg : IndicatorsConfig) (st : CalcState) : Bool :=
  let maW := match cfg.moving_averages with
    | some mc => mc.windows
    | none => []
  let maMiss := maW.any (fun w =>
    match dictGet st.values ("MA_" ++ toString w) with
    | none => true
    | some e => e.value == JVal.null)
  if tf == "daily" then
    let rsiPeriods := match cfg.rsi with
      | some (RsiConfig.multi ps _) => ps
      | _ => []
    let rsiMiss := rsiPeriods.any (fun pr =>
      match dictGet st.values ("RSI_" ++ toString pr) with
      | none => true
      | some e => e.value == JVal.null)
    let bbMiss := match cfg.bollinger_bands with
      | some _ => st.bbMiddle.isNone || st.bbUpper.isNone || st.bbLower.isNone
      | none => false
    maMiss || rsiMiss || bbMiss
  else
    let rsiMiss := st.singleRsiValue.isNone
    let bbMiss := match cfg.bollinger_bands with
      | some _ => st.bbMiddle.isNone
      | none => false
    maMiss || rsiMiss || bbMiss

/-- The daily core outlook (lines 514-577).  A zero middle band would raise a
`ZeroDivisionError` in Python; the bandwidth division is modelled as total
rational division (no claim reaches that corner). -/
def dailyOutlook (cfg : IndicatorsConfig) (st : CalcState) (latestClose : ℚ) : String :=
  let ma5 := match dictGet st.values ("MA_5") with
    | some e => e.value
    | none => JVal.null
  let ma10 := match dictGet st.values ("MA_10") with
    | some e => e.value
    | none => JVal.null
  let isMaBullish : Bool := match ma5, ma10 with
    | JVal.num a, JVal.num b => decide (latestClose > a ∧ a > b)
    | _, _ => false
  let isMaBearish : Bool := match ma5, ma10 with
    | JVal.num a, JVal.num b => decide (latestClose < a ∧ a < b)
    | _, _ => false
  let rsiPeriods := match cfg.rsi with
    | some (RsiConfig.multi ps _) => ps
    | _ => []
  let ths := match cfg.rsi with
    | some (RsiConfig.multi _ t) => t
    | _ => []
  let counts := rsiPeriods.foldl (fun (acc : ℕ × ℕ) pr =>
    let v := match dictGet st.values ("RSI_" ++ toString pr) with
      | some e => e.value
      | none => JVal.null
    let t := rsiThresholdsFor ths pr
    ((if (match v with | JVal.num q => decide (q < t.1) | _ => false) then acc.1 + 1 else acc.1),
     (if (match v with | JVal.num q => decide (q > t.2) | _ => false) then acc.2 + 1 else acc.2)))
    (0, 0)
  let isRsiOversold := 2 ≤ counts.1
  let isRsiOverbought := 2 ≤ counts.2
  let bbState : String := match st.bbUpper, st.bbMiddle, st.bbLower with
    | some u, some mid, some lo =>
      if (u - lo) / mid < 1 / 10 then "Squeeze_Detected"
      else if latestClose > u then "Breakout_Up"
      else if latestClose < lo then "Breakout_Down"
      else if latestClose > mid ∧ latestClose ≤ u then "Trading_In_Upper_Channel"
      else if latestClose < mid ∧ latestClose ≥ lo then "Trading_In_Lower_Channel"
      else "Price_Near_Middle_Band"
    | _, _, _ => "Neutral"
  if isMaBullish ∧ isRsiOversold then
    (if bbState = "Trading_In_Upper_Channel" ∨ bbState = "Breakout_Up" ∨
        bbState = "Price_Near_Middle_Band" then "BULLISH" else "NEUTRAL_WAIT")
  else if isMaBearish ∧ isRsiOverbought then
    (if bbState = "Trading_In_Lower_Channel" ∨ bbState = "Breakout_Down" ∨
        bbState = "Price_Near_Middle_Band" then "BEARISH" else "NEUTRAL_WAIT")
  else if bbState = "Breakout_Up" then "BULLISH"
  else if bbState = "Breakout_Down" then "BEARISH"
  else "NEUTRAL_WAIT"

/-- The weekly/monthly core outlook (lines 579-592). -/
def weeklyMonthlyOutlook (st : CalcState) : String :=
  match st.singleRsiValue with
  | some v => if v < 30 then "BULLISH" else if v > 70 then "BEARISH" else "NEUTRAL_WAIT"
  | none => "INSUFFICIENT_DATA"

/-- Lines 510-594: the core outlook dispatch. -/
def coreOutlook (tf : String) (cfg : IndicatorsConfig) (st : CalcState) (latestClose : ℚ) :
    String :=
  if tf == "daily" then dailyOutlook cfg st latestClose
  else if tf == "weekly" ∨ tf == "monthly" then weeklyMonthlyOutlook st
  else "CONFIG_ERROR"

/-- `format_val` applied to every display entry (lines 503 and 597). -/
def fmtValues (m : List (String × IndEntry)) : List (String × IndEntry) :=
  m.map (fun q => (q.1, { value := format_val q.2.value, sentiment := q.2.sentiment }))

/-- Lines 187-605: config lookup, display stage, historical bundle,
completeness check and core outlook. -/
def decideStage (env : PyEnv) (p : PrepData) (ff : List FFItem) (timeframe : String) :
    EngineResult :=
  match lookupConfig timeframe with
  | none => { errorTemplate (pyCapitalize timeframe) with outlook := ("CONFIG_ERROR") }
  | some scfg =>
    match displayStage env p ff scfg.indicators scfg.description with
    | Sum.inl r => r
    | Sum.inr st =>
      let hist := histStage env p
      if essentialsMissing timeframe scfg.indicators st then
        { outlook := ("INSUFFICIENT_DATA"), time_horizon_applied := scfg.description,
          latest_close := some p.latestClose, indicator_values := fmtValues st.values,
          config_used := some scfg.indicators, historical_indicators := hist }
      else
        { outlook := coreOutlook timeframe scfg.indicators st p.latestClose,
          time_horizon_applied := scfg.description, latest_close := some p.latestClose,
          indicator_values := fmtValues st.values, config_used := some scfg.indicators,
          historical_indicators := hist }

/-- `AnalysisEngine.generate_signals`.  The first component is the returned
result (`none` models an uncaught Python exception); the second is the
caller-visible `stock_data` list after the call. -/
def generate_signals (env : PyEnv) (stock_code : String) (stock_data : List StockItem)
    (fund_flow_data : List FFItem) (timeframe : String) :
    Option EngineResult × List StockItem :=
  match prepareData env stock_data timeframe with
  | (Prep.err r, items) => (some r, items)
  | (Prep.exn, items) => (none, items)
  | (Prep.ok p, items) => (some (decideStage env p fund_flow_data timeframe), items)

/-! ## Concrete fixtures used by witnesses and counterexamples -/

/-- A concrete environment: dates are already normalised strings, no string
cell coerces to a number, and the square root is irrelevant (all claims hold
for every environment). -/
def idEnv : PyEnv :=
  { normDate := fun v => match v with | JVal.str s => some s | _ => none,
    coerceNum := fun _ => none, sqrtFn := fun _ => 0 }

/-- A fully populated bar dictionary. -/
def mkBar (d : String) (o h l c v : ℚ) : StockItem :=
  StockItem.dict
    { date := some (JVal.str d), openPrice := some (JVal.num o), high := some (JVal.num h),
      low := some (JVal.num l), close := some (JVal.num c), volume := some (JVal.num v),
      turnover := some (JVal.num 1), change_pct := some (JVal.num 1) }

/-- `n` well-formed bars with strictly ascending closes `1, 2, …, n`. -/
def demoBars (n : ℕ) : List StockItem :=
  (List.range n).map (fun i =>
    mkBar ("d" ++ toString i) ((i : ℚ) + 1) ((i : ℚ) + 2) ((i : ℚ)) ((i : ℚ) + 1) 10)

/-! ## List lemmas for the indicator series -/

theorem maskFrom_getElem? (minp : ℕ) :
    ∀ (xs : List ℚ) (i j : ℕ),
      (maskFrom minp i xs)[j]? =
        (xs[j]?).map (fun x => if i + j + 1 < minp then none else some x) := by
  intro xs
  induction xs with
  | nil => intro i j; simp [maskFrom]
  | cons x rest ih =>
    intro i j
    cases j with
    | zero => simp [maskFrom]
    | succ k =>
      simp only [maskFrom, List.getElem?_cons_succ, ih (i + 1) k]
      have : i + 1 + k + 1 = i + (k + 1) + 1 := by omega
      rw [this]

theorem maskFrom_length (minp : ℕ) :
    ∀ (xs : List ℚ) (i : ℕ), (maskFrom minp i xs).length = xs.length := by
  intro xs
  induction xs with
  | nil => intro i; simp [maskFrom]
  | cons x rest ih => intro i; simp [maskFrom, ih]

theorem ewmAdjTrueAux_length (α : ℚ) :
    ∀ (xs : List ℚ) (s w : ℚ), (ewmAdjTrueAux α xs s w).length = xs.length := by
  intro xs
  induction xs with
  | nil => intro s w; simp [ewmAdjTrueAux]
  | cons x rest ih => intro s w; simp [ewmAdjTrueAux, ih]

/-- Numerator of the pandas `adjust=True` exponentially weighted mean at row
`i`: `Σ_{j≤i} (1-α)^(i-j) · x_j`. -/
def adjNum (α : ℚ) (xs : List ℚ) (i : ℕ) : ℚ :=
  ((List.range (i + 1)).map (fun j => (1 - α) ^ (i - j) * xs.getD j 0)).sum

/-- Denominator of the same mean: `Σ_{j≤i} (1-α)^j`. -/
def adjDen (α : ℚ) (i : ℕ) : ℚ :=
  ((List.range (i + 1)).map (fun j => (1 - α) ^ j)).sum

theorem adjNum_cons (α x : ℚ) (rest : List ℚ) (k : ℕ) :
    adjNum α (x :: rest) (k + 1) = (1 - α) ^ (k + 1) * x + adjNum α rest k := by
  unfold adjNum
  rw [List.range_succ_eq_map]
  simp only [List.map_cons, List.map_map, List.sum_cons, Nat.sub_zero, List.getD_cons_zero]
  congr 2
  refine List.map_congr_left (fun j _ => ?_)
  simp [Function.comp, Nat.succ_sub_succ, List.getD_cons_succ]

theorem adjDen_succ (α : ℚ) (k : ℕ) :
    adjDen α (k + 1) = adjDen α k + (1 - α) ^ (k + 1) := by
  unfold adjDen
  rw [List.range_succ]
  simp

theorem ewmAdjTrueAux_getElem? (α : ℚ) :
    ∀ (xs : List ℚ) (s w : ℚ) (i : ℕ), i < xs.length →
      (ewmAdjTrueAux α xs s w)[i]? =
        some (((1 - α) ^ (i + 1) * s + adjNum α xs i) /
          ((1 - α) ^ (i + 1) * w + adjDen α i)) := by
  intro xs
  induction xs with
  | nil => intro s w i h; simp at h
  | cons x rest ih =>
    intro s w i h
    cases i with
    | zero =>
      simp only [ewmAdjTrueAux, List.getElem?_cons_zero, Option.some.injEq]
      have hn : adjNum α (x :: rest) 0 = x := by
        simp [adjNum, List.range_succ]
      have hd : adjDen α 0 = 1 := by simp [adjDen, List.range_succ]
      rw [hn, hd]
      ring_nf
    | succ k =>
      have hk : k < rest.length := by simpa using h
      simp only [ewmAdjTrueAux, List.getElem?_cons_succ]
      rw [ih _ _ k hk, adjNum_cons, adjDen_succ, Option.some.injEq]
      congr 1 <;> ring

/-- The masked `adjust=True` EWM of rsi.py, in closed form. -/
theorem ewmMasked_getElem? (α : ℚ) (minp : ℕ) (xs : List ℚ) (i : ℕ) (h : i < xs.length) :
    (maskMinPeriods minp (ewmAdjTrue α xs))[i]? =
      some (if i + 1 < minp then none else some (adjNum α xs i / adjDen α i)) := by
  unfold maskMinPeriods ewmAdjTrue
  rw [maskFrom_getElem?, ewmAdjTrueAux_getElem? α xs 0 0 i h]
  simp

/-! ## C3 — RSI flat-series tie-break (evidence at the failing input) -/

/-- Claim C3: the override order (`avg_loss == 0 ⇒ 100`, then overwritten by
`avg_gain == 0 ⇒ 0`) does make a constant series yield RSI 0 — but at the
failing input `prices = [5,5,5,5]`, `period = 3`, the code already yields `0`
at index `2 = N-1`, where the claim (and rsi.py's own comments and tests,
which place the first value at index `N`) requires `null`: the gain series
has no missing value at index 0, so `min_periods = N` unmasks one row
earlier. -/
theorem c3_rsi_constant_eval :
    calculate_rsi [5, 5, 5, 5] 3 = [none, none, some 0, some 0] := by decide

/-! ## C4 — the RSI averages are not Wilder's recursion -/

/-- Claim C4 (counterexample): on `closes = [0,1,3,7]`, `period = 2`, the
average gain is already defined at index `1` (before `N+1 = 3` raw prices),
and consecutive defined values violate the Wilder recurrence
`avg[i] = (1-1/N)·avg[i-1] + (1/N)·gain[i]`: `avg[2] = 10/7`, `gain[3] = 4`,
but `avg[3] = 14/5 ≠ (1/2)·(10/7) + (1/2)·4 = 19/7`. -/
theorem c4_wilder_counterexample :
    (rsiAvgGain [0, 1, 3, 7] 2)[1]? = some (some (2 / 3)) ∧
    (rsiAvgGain [0, 1, 3, 7] 2)[2]? = some (some (10 / 7)) ∧
    (rsiAvgGain [0, 1, 3, 7] 2)[3]? = some (some (14 / 5)) ∧
    (rsiGains [0, 1, 3, 7])[3]? = some 4 ∧
    ¬ ((14 : ℚ) / 5 = (1 - 1 / 2) * (10 / 7) + (1 / 2) * 4) := by
  refine ⟨by decide, by decide, by decide, by decide, by decide⟩

/-- Claim C4 (amended): inside `calculate_rsi` the average gain and loss are
the pandas `adjust=True` exponentially weighted means with smoothing factor
`α = 1/N` — `avg[i] = (Σ_{j≤i} (1-α)^(i-j)·x_j) / (Σ_{j≤i} (1-α)^j)` over the
gain/loss series (whose entry 0 is `0`) — masked before index `N-1`, i.e.
first defined once `N` raw prices have been seen, not `N+1`. -/
theorem c4_rsi_avg_is_adjusted_ewm (data : List ℚ) (period : ℕ) (hp : 1 ≤ period)
    (i : ℕ) (hi : i < data.length) :
    (rsiAvgGain data period)[i]? =
      some (if i + 1 < period then none
        else some (adjNum (1 / (period : ℚ)) (rsiGains data) i /
          adjDen (1 / (period : ℚ)) i)) ∧
    (rsiAvgLoss data period)[i]? =
      some (if i + 1 < period then none
        else some (adjNum (1 / (period : ℚ)) (rsiLosses data) i /
          adjDen (1 / (period : ℚ)) i)) := by
  have hg : (rsiGains data).length = data.length := by
    cases data with
    | nil => simp [rsiGains]
    | cons x rest => simp [rsiGains, pyDiffs]
  have hl : (rsiLosses data).length = data.length := by
    cases data with
    | nil => simp [rsiLosses]
    | cons x rest => simp [rsiLosses, pyDiffs]
  constructor
  · exact ewmMasked_getElem? _ _ _ i (by rw [hg]; exact hi)
  · exact ewmMasked_getElem? _ _ _ i (by rw [hl]; exact hi)

/-- Witness for `c4_rsi_avg_is_adjusted_ewm` at `data = [0,1,3,7]`,
`period = 2`, `i = 2`. -/
theorem c4_rsi_avg_is_adjusted_ewm_witness :
    (rsiAvgGain [0, 1, 3, 7] 2)[2]? =
      some (if 2 + 1 < 2 then none
        else some (adjNum (1 / (2 : ℚ)) (rsiGains [0, 1, 3, 7]) 2 /
          adjDen (1 / (2 : ℚ)) 2)) ∧
    (rsiAvgLoss [0, 1, 3, 7] 2)[2]? =
      some (if 2 + 1 < 2 then none
        else some (adjNum (1 / (2 : ℚ)) (rsiLosses [0, 1, 3, 7]) 2 /
          adjDen (1 / (2 : ℚ)) 2)) :=
  c4_rsi_avg_is_adjusted_ewm [0, 1, 3, 7] 2 (by decide) 2 (by decide)

/-! ## C5 — KDJ zero-range RSV policy -/

theorem rsvAux_length (highs lows closes : List ℚ) (n : ℕ) :
    ∀ (cnt i : ℕ) (prev : Option ℚ), (rsvAux highs lows closes n i cnt prev).length = cnt := by
  intro cnt
  induction cnt with
  | zero => intro i prev; simp [rsvAux]
  | succ k ih => intro i prev; simp [rsvAux, ih]

theorem rsvAux_head (highs lows closes : List ℚ) (n : ℕ) (cnt i : ℕ) (prev : Option ℚ) :
    (rsvAux highs lows closes n i (cnt + 1) prev)[0]? =
      some (rsvAt highs lows closes n i prev) := by
  simp [rsvAux]

/-- Adjacent zero-range entries of the RSV loop carry the previous value. -/
theorem rsvAux_carry (highs lows closes : List ℚ) (n : ℕ) :
    ∀ (j cnt i : ℕ) (prev : Option ℚ), j + 1 < cnt →
      winMax highs n (i + j + 1) = winMin lows n (i + j + 1) →
      (rsvAux highs lows closes n i cnt prev)[j + 1]? =
        (rsvAux highs lows closes n i cnt prev)[j]? := by
  intro j
  induction j with
  | zero =>
    intro cnt i prev hcnt hzr
    match cnt, hcnt with
    | cnt' + 2, _ =>
      simp only [rsvAux, List.getElem?_cons_succ, List.getElem?_cons_zero]
      have : rsvAt highs lows closes n (i + 1)
          (some (rsvAt highs lows closes n i prev)) = rsvAt highs lows closes n i prev := by
        unfold rsvAt
        simp only [show i + 0 + 1 = i + 1 from rfl] at hzr
        simp [hzr]
      match cnt' with
      | 0 => simp [rsvAux, this]
      | cnt'' + 1 => simp [rsvAux, this]
  | succ k ih =>
    intro cnt i prev hcnt hzr
    match cnt, hcnt with
    | cnt' + 1, _ =>
      simp only [rsvAux, List.getElem?_cons_succ]
      exact ih cnt' (i + 1) _ (by omega) (by
        have : i + 1 + k + 1 = i + (k + 1) + 1 := by omega
        rw [this]; exact hzr)

theorem repl_append_map_shift (m : ℕ) (l : List ℚ) (j : ℕ) :
    (List.replicate m (none : Option ℚ) ++ l.map some)[m + j]? = (l[j]?).map some := by
  rw [List.getElem?_append_right (by simp)]
  simp

theorem kdjRsv_getElem?_shift (highs lows closes : List ℚ) (n j : ℕ) :
    (kdjRsv highs lows closes n)[n - 1 + j]? =
      ((rsvAux highs lows closes n (n - 1) (closes.length - (n - 1)) none)[j]?).map some := by
  unfold kdjRsv
  exact repl_append_map_shift _ _ _

/-- Claim C5 (counterexample): with `n = 2`, `highs = [1,2,3,3]`,
`lows = [0,1,3,3]`, `closes = [1,2,3,3]`, the first zero-range window of the
whole series occurs at index 3, yet the RSV there is the carried-forward
`100`, not the `0` the claim requires for the first occurrence. -/
theorem c5_kdj_rsv_counterexample :
    winMax [1, 2, 3, 3] 2 3 = winMin [0, 1, 3, 3] 2 3 ∧
    winMax [1, 2, 3, 3] 2 1 ≠ winMin [0, 1, 3, 3] 2 1 ∧
    winMax [1, 2, 3, 3] 2 2 ≠ winMin [0, 1, 3, 3] 2 2 ∧
    (kdjRsv [1, 2, 3, 3] [0, 1, 3, 3] [1, 2, 3, 3] 2)[3]? = some (some 100) := by
  refine ⟨by decide, by decide, by decide, by decide⟩

/-- Claim C5 (amended): in `calculate_kdj`, a zero-range window yields RSV 0
only when it occurs at the first valid index `n-1` (where the previous
`rsv_values` entry is the `None` padding, or `i == 0`); at every later
zero-range index the RSV equals the immediately preceding RSV entry —
whether or not an earlier zero-range window occurred. -/
theorem c5_kdj_rsv_zero_range_policy (highs lows closes : List ℚ) (n : ℕ)
    (hn : 1 ≤ n) (hlen : n ≤ closes.length) :
    (winMax highs n (n - 1) = winMin lows n (n - 1) →
      (kdjRsv highs lows closes n)[n - 1]? = some (some 0)) ∧
    (∀ i, n ≤ i → i < closes.length →
      winMax highs n i = winMin lows n i →
      (kdjRsv highs lows closes n)[i]? = (kdjRsv highs lows closes n)[i - 1]?) := by
  have hcnt : 1 ≤ closes.length - (n - 1) := by omega
  constructor
  · intro hzr
    have h0 := kdjRsv_getElem?_shift highs lows closes n 0
    rw [Nat.add_zero] at h0
    obtain ⟨cnt', hc⟩ : ∃ cnt', closes.length - (n - 1) = cnt' + 1 :=
      ⟨closes.length - (n - 1) - 1, by omega⟩
    rw [hc] at h0
    have hat : rsvAt highs lows closes n (n - 1) none = 0 := by
      unfold rsvAt
      simp [hzr]
    rw [h0, rsvAux_head, hat]
    rfl
  · intro i hni hilen hzr
    obtain ⟨j, hj⟩ : ∃ j, i = n - 1 + (j + 1) := ⟨i - n, by omega⟩
    have h1 : i - 1 = n - 1 + j := by omega
    rw [h1, hj, kdjRsv_getElem?_shift, kdjRsv_getElem?_shift]
    congr 1
    exact rsvAux_carry highs lows closes n j _ (n - 1) none (by omega)
      (by rw [show n - 1 + j + 1 = n - 1 + (j + 1) from rfl, ← hj]; exact hzr)

/-- Witness for `c5_kdj_rsv_zero_range_policy` on a flat two-bar series with
`n = 2` (the zero-range window at the first valid index yields RSV 0). -/
theorem c5_kdj_rsv_zero_range_policy_witness :
    (winMax [1, 1] 2 (2 - 1) = winMin [1, 1] 2 (2 - 1) →
      (kdjRsv [1, 1] [1, 1] [1, 1] 2)[2 - 1]? = some (some 0)) ∧
    (∀ i, 2 ≤ i → i < ([1, 1] : List ℚ).length →
      winMax [1, 1] 2 i = winMin [1, 1] 2 i →
      (kdjRsv [1, 1] [1, 1] [1, 1] 2)[i]? = (kdjRsv [1, 1] [1, 1] [1, 1] 2)[i - 1]?) :=
  c5_kdj_rsv_zero_range_policy [1, 1] [1, 1] [1, 1] 2 (by decide) (by decide)

/-! ## C6 — KDJ K/D seeding and recursion -/

theorem scanl_getElem?_zero (f : ℚ → ℚ → ℚ) (b : ℚ) (l : List ℚ) :
    (List.scanl f b l)[0]? = some b := by
  cases l <;> simp [List.scanl]

theorem length_scanl' (f : ℚ → ℚ → ℚ) :
    ∀ (l : List ℚ) (b : ℚ), (List.scanl f b l).length = l.length + 1 := by
  intro l
  induction l with
  | nil => intro b; simp [List.scanl]
  | cons x rest ih => intro b; simp [List.scanl, ih]

theorem scanl_rec (f : ℚ → ℚ → ℚ) :
    ∀ (l : List ℚ) (b : ℚ) (j : ℕ), j < l.length →
      ∃ x acc, l[j]? = some x ∧ (List.scanl f b l)[j]? = some acc ∧
        (List.scanl f b l)[j + 1]? = some (f acc x) := by
  intro l
  induction l with
  | nil => intro b j h; simp at h
  | cons a rest ih =>
    intro b j h
    cases j with
    | zero =>
      refine ⟨a, b, by simp, ?_, ?_⟩
      · simp [List.scanl]
      · simp [List.scanl, scanl_getElem?_zero]
    | succ k =>
      have hk : k < rest.length := by simpa using h
      obtain ⟨x, acc, hx, hacc, hstep⟩ := ih (f b a) k hk
      exact ⟨x, acc, by simpa using hx, by simpa [List.scanl] using hacc,
        by simpa [List.scanl] using hstep⟩

/-- Claim C6 (counterexample): with `n = 1`, `m1 = m2 = 1`, a zero-range first
bar gives RSV 0, and the claim's seed `((M1-1)/M1)·50 + (1/M1)·RSV = 0`
differs from the code's hardcoded seed `(2/3)·50 + (1/3)·RSV = 100/3`. -/
theorem c6_kdj_seed_counterexample :
    (kdjRsv [0, 2] [0, 0] [1, 2] 1)[0]? = some (some 0) ∧
    (calculate_kdj [0, 2] [0, 0] [1, 2] 1 1 1).1[0]? = some (some (100 / 3)) ∧
    ¬ ((100 : ℚ) / 3 = (((1 : ℚ) - 1) / 1) * 50 + (1 / 1) * 0) := by
  refine ⟨by decide, by decide, by decide⟩

/-- Claim C6 (amended): for every `M1, M2 ≥ 1`, the K line of `calculate_kdj`
is seeded at the first valid index `n-1` with the hardcoded weights
`K = (2/3)·50 + (1/3)·RSV` — independent of `M1` — and thereafter follows
`K[i] = ((M1-1)/M1)·K[i-1] + (1/M1)·RSV[i]`; the D line is seeded
`D = (2/3)·50 + (1/3)·K` — independent of `M2` — and thereafter follows
`D[i] = ((M2-1)/M2)·D[i-1] + (1/M2)·K[i]`.  (For `M1 = M2 = 3` the hardcoded
seed coincides with the claimed one.) -/
theorem c6_kdj_k_d_recursion (highs lows closes : List ℚ) (n m1 m2 : ℕ)
    (hh : highs ≠ []) (hl : lows ≠ []) (hc : closes ≠ []) (hn : 1 ≤ n)
    (hlen : n ≤ closes.length) :
    (∃ r, (kdjRsv highs lows closes n)[n - 1]? = some (some r) ∧
      (calculate_kdj highs lows closes n m1 m2).1[n - 1]? =
        some (some ((2 / 3 : ℚ) * 50 + (1 / 3 : ℚ) * r)) ∧
      (calculate_kdj highs lows closes n m1 m2).2.1[n - 1]? =
        some (some ((2 / 3 : ℚ) * 50 +
          (1 / 3 : ℚ) * ((2 / 3 : ℚ) * 50 + (1 / 3 : ℚ) * r)))) ∧
    (∀ i, n ≤ i → i < closes.length →
      ∃ kp r dp, (calculate_kdj highs lows closes n m1 m2).1[i - 1]? = some (some kp) ∧
        (kdjRsv highs lows closes n)[i]? = some (some r) ∧
        (calculate_kdj highs lows closes n m1 m2).1[i]? = some (some (kdjStep m1 kp r)) ∧
        (calculate_kdj highs lows closes n m1 m2).2.1[i - 1]? = some (some dp) ∧
        (calculate_kdj highs lows closes n m1 m2).2.1[i]? =
          some (some (kdjStep m2 dp (kdjStep m1 kp r)))) := by
  have hguard : ¬ (highs = [] ∨ lows = [] ∨ closes = [] ∨ closes.length < n) := by
    push_neg
    exact ⟨hh, hl, hc, by omega⟩
  have hcnt : 1 ≤ closes.length - (n - 1) := by omega
  -- name the RSV value list and expose its head
  set rsvVals := rsvAux highs lows closes n (n - 1) (closes.length - (n - 1)) none with hrsv
  have hlenr : rsvVals.length = closes.length - (n - 1) := rsvAux_length _ _ _ _ _ _ _
  obtain ⟨r0, rrest, hcons⟩ : ∃ r0 rrest, rsvVals = r0 :: rrest := by
    cases hx : rsvVals with
    | nil =>
      rw [hx] at hlenr
      simp at hlenr
      omega
    | cons a t => exact ⟨a, t, rfl⟩
  have hk : (calculate_kdj highs lows closes n m1 m2).1 =
      List.replicate (n - 1) none ++ (kdjKVals m1 rsvVals).map some := by
    unfold calculate_kdj
    rw [if_neg hguard]
  have hd : (calculate_kdj highs lows closes n m1 m2).2.1 =
      List.replicate (n - 1) none ++ (kdjDVals m2 (kdjKVals m1 rsvVals)).map some := by
    unfold calculate_kdj
    rw [if_neg hguard]
  -- shape of the K and D value lists
  set k0seed := (2 / 3 : ℚ) * 50 + (1 / 3 : ℚ) * r0 with hk0
  have hkv : kdjKVals m1 rsvVals = List.scanl (kdjStep m1) k0seed rrest := by
    rw [hcons]; rfl
  obtain ⟨ktail, hkt⟩ : ∃ ktail, List.scanl (kdjStep m1) k0seed rrest = k0seed :: ktail := by
    cases rrest with
    | nil => exact ⟨[], rfl⟩
    | cons x t => exact ⟨_, rfl⟩
  set d0seed := (2 / 3 : ℚ) * 50 + (1 / 3 : ℚ) * k0seed with hd0
  have hdv : kdjDVals m2 (kdjKVals m1 rsvVals) = List.scanl (kdjStep m2) d0seed ktail := by
    rw [hkv, hkt]; rfl
  have hktlen : ktail.length = rrest.length := by
    have := length_scanl' (kdjStep m1) rrest k0seed
    rw [hkt] at this
    simpa using this
  constructor
  · -- seeding at the first valid index
    refine ⟨r0, ?_, ?_, ?_⟩
    · have h0 := kdjRsv_getElem?_shift highs lows closes n 0
      rw [Nat.add_zero] at h0
      rw [h0, ← hrsv, hcons]
      simp
    · have h0 := repl_append_map_shift (n - 1) (kdjKVals m1 rsvVals) 0
      rw [Nat.add_zero] at h0
      rw [hk, h0, hkv, hkt]
      simp [hk0]
    · have h0 := repl_append_map_shift (n - 1) (kdjDVals m2 (kdjKVals m1 rsvVals)) 0
      rw [Nat.add_zero] at h0
      rw [hd, h0, hdv, scanl_getElem?_zero]
      simp [hd0, hk0]
  · -- the recursion step
    intro i hni hilen
    obtain ⟨j, hj⟩ : ∃ j, i = n - 1 + (j + 1) := ⟨i - n, by omega⟩
    have hj' : i - 1 = n - 1 + j := by omega
    have hjr : j < rrest.length := by
      have : rsvVals.length = rrest.length + 1 := by rw [hcons]; simp
      omega
    obtain ⟨x, acc, hx, hacc, hstep⟩ := scanl_rec (kdjStep m1) rrest k0seed j hjr
    obtain ⟨y, acc2, hy, hacc2, hstep2⟩ := scanl_rec (kdjStep m2) ktail d0seed j
      (by omega)
    have hyval : y = kdjStep m1 acc x := by
      have h1 : (k0seed :: ktail)[j + 1]? = some y := by simpa using hy
      rw [← hkt, hstep] at h1
      exact (Option.some.injEq _ _).mp h1.symm
    refine ⟨acc, x, acc2, ?_, ?_, ?_, ?_, ?_⟩
    · rw [hj', hk, repl_append_map_shift, hkv, hacc]
      rfl
    · rw [hj, kdjRsv_getElem?_shift, ← hrsv, hcons]
      simp [hx]
    · rw [hj, hk, repl_append_map_shift, hkv, hstep]
      rfl
    · rw [hj', hd, repl_append_map_shift, hdv, hacc2]
      rfl
    · rw [hj, hd, repl_append_map_shift, hdv, ← hyval, hstep2]
      rfl

/-- Witness for `c6_kdj_k_d_recursion` at `n = 1`, `m1 = m2 = 2` on a
two-bar series. -/
theorem c6_kdj_k_d_recursion_witness :
    (∃ r, (kdjRsv [0, 2] [0, 0] [1, 2] 1)[1 - 1]? = some (some r) ∧
      (calculate_kdj [0, 2] [0, 0] [1, 2] 1 2 2).1[1 - 1]? =
        some (some ((2 / 3 : ℚ) * 50 + (1 / 3 : ℚ) * r)) ∧
      (calculate_kdj [0, 2] [0, 0] [1, 2] 1 2 2).2.1[1 - 1]? =
        some (some ((2 / 3 : ℚ) * 50 +
          (1 / 3 : ℚ) * ((2 / 3 : ℚ) * 50 + (1 / 3 : ℚ) * r)))) ∧
    (∀ i, 1 ≤ i → i < ([1, 2] : List ℚ).length →
      ∃ kp r dp, (calculate_kdj [0, 2] [0, 0] [1, 2] 1 2 2).1[i - 1]? = some (some kp) ∧
        (kdjRsv [0, 2] [0, 0] [1, 2] 1)[i]? = some (some r) ∧
        (calculate_kdj [0, 2] [0, 0] [1, 2] 1 2 2).1[i]? = some (some (kdjStep 2 kp r)) ∧
        (calculate_kdj [0, 2] [0, 0] [1, 2] 1 2 2).2.1[i - 1]? = some (some dp) ∧
        (calculate_kdj [0, 2] [0, 0] [1, 2] 1 2 2).2.1[i]? =
          some (some (kdjStep 2 dp (kdjStep 2 kp r)))) :=
  c6_kdj_k_d_recursion [0, 2] [0, 0] [1, 2] 1 2 2 (by decide) (by decide) (by decide)
    (by decide) (by decide)

/-! ## C8 — MACD null boundaries -/

theorem emaAdjFalseAux_length (α : ℚ) :
    ∀ (xs : List ℚ) (p : ℚ), (emaAdjFalseAux α xs p).length = xs.length := by
  intro xs
  induction xs with
  | nil => intro p; simp [emaAdjFalseAux]
  | cons x rest ih => intro p; simp [emaAdjFalseAux, ih]

theorem emaAdjFalse_length (α : ℚ) (xs : List ℚ) : (emaAdjFalse α xs).length = xs.length := by
  cases xs with
  | nil => simp [emaAdjFalse]
  | cons x rest => simp [emaAdjFalse, emaAdjFalseAux_length]

theorem maskMinPeriods_length (p : ℕ) (xs : List ℚ) :
    (maskMinPeriods p xs).length = xs.length :=
  maskFrom_length p xs 0

/-- One entry of a masked adjust-`False` EWM: always present below the input
length, missing exactly below `min_periods`. -/
theorem maskedEma_getElem? (α : ℚ) (p : ℕ) (xs : List ℚ) (i : ℕ) (h : i < xs.length) :
    ∃ y, (maskMinPeriods p (emaAdjFalse α xs))[i]? = some y ∧ (y = none ↔ i + 1 < p) := by
  have hlen : (emaAdjFalse α xs).length = xs.length := emaAdjFalse_length α xs
  obtain ⟨v, hv⟩ : ∃ v, (emaAdjFalse α xs)[i]? = some v :=
    ⟨(emaAdjFalse α xs).get ⟨i, by omega⟩, List.getElem?_eq_getElem (by omega)⟩
  refine ⟨if i + 1 < p then none else some v, ?_, ?_⟩
  · unfold maskMinPeriods
    rw [maskFrom_getElem?, hv]
    simp
  · split <;> simp_all

theorem macdEma_getElem? (closes : List ℚ) (p : ℕ) (i : ℕ) (h : i < closes.length) :
    ∃ y, (macdEma closes p)[i]? = some y ∧ (y = none ↔ i + 1 < p) :=
  maskedEma_getElem? _ p closes i h

theorem macdLineOf_length (closes : List ℚ) (s L : ℕ) :
    (macdLineOf closes s L).length = closes.length := by
  simp [macdLineOf, macdEma, maskMinPeriods_length, emaAdjFalse_length]

/-- One entry of the macd line: present below the input length, missing
exactly below `max s L - 1`. -/
theorem macdLineOf_getElem? (closes : List ℚ) (s L : ℕ) (i : ℕ) (h : i < closes.length) :
    ∃ z, (macdLineOf closes s L)[i]? = some z ∧ (z = none ↔ i + 1 < max s L) := by
  obtain ⟨y1, h1, e1⟩ := macdEma_getElem? closes s i h
  obtain ⟨y2, h2, e2⟩ := macdEma_getElem? closes L i h
  refine ⟨optSub y1 y2, ?_, ?_⟩
  · unfold macdLineOf
    rw [List.getElem?_zipWith, h1, h2]
  · cases y1 <;> cases y2 <;> simp_all [optSub, lt_max_iff]

theorem takeWhile_isNone_length :
    ∀ (l : List (Option ℚ)) (k : ℕ), (∀ i, i < k → l[i]? = some none) →
      (∃ v, l[k]? = some (some v)) → (l.takeWhile Option.isNone).length = k := by
  intro l
  induction l with
  | nil =>
    intro k hpre hk
    obtain ⟨v, hv⟩ := hk
    simp at hv
  | cons a t ih =>
    intro k hpre hk
    cases k with
    | zero =>
      obtain ⟨v, hv⟩ := hk
      simp at hv
      subst hv
      simp [List.takeWhile]
    | succ j =>
      have h0 : a = none := by
        have := hpre 0 (Nat.succ_pos j)
        simpa using this
      subst h0
      have ht : (t.takeWhile Option.isNone).length = j := by
        refine ih j (fun i hi => ?_) ?_
        · have := hpre (i + 1) (by omega)
          simpa using this
        · obtain ⟨v, hv⟩ := hk
          exact ⟨v, by simpa using hv⟩
      simp [List.takeWhile, ht]

/-- The macd line's missing entries form the exact prefix of length
`max s L - 1`. -/
theorem macd_lead (closes : List ℚ) (s L : ℕ) (hs : 1 ≤ s) (hL : 1 ≤ L)
    (hlen : max s L ≤ closes.length) :
    ((macdLineOf closes s L).takeWhile Option.isNone).length = max s L - 1 := by
  refine takeWhile_isNone_length _ _ (fun i hi => ?_) ?_
  · obtain ⟨z, hz, he⟩ := macdLineOf_getElem? closes s L i (by omega)
    rw [hz, he.mpr (by omega)]
  · obtain ⟨z, hz, he⟩ := macdLineOf_getElem? closes s L (max s L - 1) (by omega)
    cases z with
    | none =>
      exfalso
      have := he.mp rfl
      omega
    | some v => exact ⟨v, hz⟩

theorem all_some_eq_map :
    ∀ (t : List (Option ℚ)), (∀ i, i < t.length → t[i]? ≠ some none) →
      ∃ u : List ℚ, t = u.map some := by
  intro t
  induction t with
  | nil => intro _; exact ⟨[], rfl⟩
  | cons a rest ih =>
    intro h
    obtain ⟨v, hv⟩ : ∃ v, a = some v := by
      cases a with
      | none => exact absurd (by simp) (h 0 (by simp))
      | some v => exact ⟨v, rfl⟩
    obtain ⟨u, hu⟩ := ih (fun i hi => by
      have := h (i + 1) (by simpa using Nat.succ_lt_succ hi)
      simpa using this)
    exact ⟨v :: u, by rw [hv, hu]; rfl⟩

theorem filterMap_id_map_some (u : List ℚ) : (u.map some).filterMap id = u := by
  induction u with
  | nil => rfl
  | cons x rest ih => simp [ih]

/-- The unmasked macd values behind the signal line: the tail after the
missing prefix, as a plain list of rationals. -/
theorem macd_tail_eq_map (closes : List ℚ) (s L : ℕ) (hs : 1 ≤ s) (hL : 1 ≤ L)
    (hlen : max s L ≤ closes.length) :
    ∃ u : List ℚ, (macdLineOf closes s L).drop (max s L - 1) = u.map some ∧
      u.length = closes.length - (max s L - 1) := by
  have hml := macdLineOf_length closes s L
  have hdl : ((macdLineOf closes s L).drop (max s L - 1)).length =
      closes.length - (max s L - 1) := by
    simp [hml]
  obtain ⟨u, hu⟩ := all_some_eq_map ((macdLineOf closes s L).drop (max s L - 1))
    (fun i hi => by
      rw [List.getElem?_drop]
      obtain ⟨z, hz, he⟩ := macdLineOf_getElem? closes s L (max s L - 1 + i) (by omega)
      rw [hz]
      intro hcon
      have : z = none := by simpa using hcon
      have := he.mp this
      omega)
  refine ⟨u, hu, ?_⟩
  have h2 : (u.map some).length = closes.length - (max s L - 1) := by
    rw [← hu]
    exact hdl
  simpa using h2

/-- Claim C8: with short period `s ≤ L`, long period `L` and signal period
`g ≥ 1`, `calculate_macd` returns three all-null lists when the input is
shorter than `L`; otherwise the macd line is defined exactly from index
`L-1` and the signal line exactly from index `(L-1)+(g-1)`. -/
theorem c8_macd_null_boundaries (closes : List ℚ) (s L g : ℕ) (hs : 1 ≤ s) (hsL : s ≤ L)
    (hg : 1 ≤ g) :
    (closes.length < L →
      calculate_macd closes s L g =
        (List.replicate closes.length none, List.replicate closes.length none,
          List.replicate closes.length none)) ∧
    (L ≤ closes.length → ∀ i, i < closes.length →
      ((∃ v, (calculate_macd closes s L g).1[i]? = some (some v)) ↔ L - 1 ≤ i) ∧
      ((∃ v, (calculate_macd closes s L g).2.1[i]? = some (some v)) ↔
        (L - 1) + (g - 1) ≤ i)) := by
  constructor
  · intro hshort
    unfold calculate_macd
    rw [if_pos (Or.inr hshort)]
  · intro hlen i hi
    have hmax : max s L = L := Nat.max_eq_right hsL
    have hguard : ¬ (closes = [] ∨ closes.length < L) := by
      push_neg
      refine ⟨?_, by omega⟩
      intro hnil
      rw [hnil] at hi
      simp at hi
    have hmacd : (calculate_macd closes s L g).1 = macdLineOf closes s L := by
      unfold calculate_macd
      rw [if_neg hguard]
    have hsig : (calculate_macd closes s L g).2.1 = macdSignalOf closes s L g := by
      unfold calculate_macd
      rw [if_neg hguard]
    have hlead := macd_lead closes s L hs (by omega) (by omega)
    rw [hmax] at hlead
    obtain ⟨u, hu, hulen⟩ := macd_tail_eq_map closes s L hs (by omega) (by omega)
    rw [hmax] at hu hulen
    constructor
    · rw [hmacd]
      obtain ⟨z, hz, he⟩ := macdLineOf_getElem? closes s L i hi
      rw [hmax] at he
      rw [hz]
      constructor
      · rintro ⟨v, hv⟩
        have hzv : z = some v := by simpa using hv
        by_contra hcon
        push_neg at hcon
        have hnone := he.mpr (by omega)
        rw [hzv] at hnone
        exact Option.noConfusion hnone
      · intro hLi
        cases z with
        | none =>
          have := he.mp rfl
          omega
        | some v => exact ⟨v, rfl⟩
    · rw [hsig]
      have hsigeq : macdSignalOf closes s L g =
          List.replicate (L - 1) none ++
            maskMinPeriods g (emaAdjFalse (2 / ((g : ℚ) + 1)) u) := by
        unfold macdSignalOf
        simp only [hlead, hu, filterMap_id_map_some]
      rw [hsigeq]
      by_cases hcase : i < L - 1
      · rw [List.getElem?_append_left (by simpa using hcase)]
        constructor
        · rintro ⟨v, hv⟩
          rw [List.getElem?_replicate] at hv
          simp [hcase] at hv
        · intro hcon
          omega
      · push_neg at hcase
        rw [List.getElem?_append_right (by simpa using hcase)]
        simp only [List.length_replicate]
        obtain ⟨y, hy, hye⟩ := maskedEma_getElem? (2 / ((g : ℚ) + 1)) g u (i - (L - 1))
          (by omega)
        rw [hy]
        constructor
        · rintro ⟨v, hv⟩
          have hyv : y = some v := by simpa using hv
          by_contra hcon
          push_neg at hcon
          have hnone := hye.mpr (by omega)
          rw [hyv] at hnone
          exact Option.noConfusion hnone
        · intro hgi
          cases y with
          | none =>
            have := hye.mp rfl
            omega
          | some v => exact ⟨v, rfl⟩

/-- Witness for `c8_macd_null_boundaries` at `s = 2`, `L = 3`, `g = 2` on six
closes. -/
theorem c8_macd_null_boundaries_witness :
    (([1, 2, 3, 4, 5, 6] : List ℚ).length < 3 →
      calculate_macd [1, 2, 3, 4, 5, 6] 2 3 2 =
        (List.replicate ([1, 2, 3, 4, 5, 6] : List ℚ).length none,
          List.replicate ([1, 2, 3, 4, 5, 6] : List ℚ).length none,
          List.replicate ([1, 2, 3, 4, 5, 6] : List ℚ).length none)) ∧
    (3 ≤ ([1, 2, 3, 4, 5, 6] : List ℚ).length →
      ∀ i, i < ([1, 2, 3, 4, 5, 6] : List ℚ).length →
      ((∃ v, (calculate_macd [1, 2, 3, 4, 5, 6] 2 3 2).1[i]? = some (some v)) ↔ 3 - 1 ≤ i) ∧
      ((∃ v, (calculate_macd [1, 2, 3, 4, 5, 6] 2 3 2).2.1[i]? = some (some v)) ↔
        (3 - 1) + (2 - 1) ≤ i)) :=
  c8_macd_null_boundaries [1, 2, 3, 4, 5, 6] 2 3 2 (by decide) (by decide) (by decide)

/-! ## C9 — length invariant and null padding for all five indicators -/

theorem getD_none_of_getElem? (l : List (Option ℚ)) (i : ℕ)
    (h : l[i]? = some none ∨ l[i]? = none) : l.getD i none = none := by
  rcases h with h | h <;> simp [h]

theorem replicate_getD_none (m i : ℕ) :
    (List.replicate m (none : Option ℚ)).getD i none = none := by
  have : (List.replicate m (none : Option ℚ))[i]? = some none ∨
      (List.replicate m (none : Option ℚ))[i]? = none := by
    rw [List.getElem?_replicate]
    split <;> simp
  exact getD_none_of_getElem? _ _ this

theorem range_map_getElem? (n : ℕ) (f : ℕ → Option ℚ) (i : ℕ) :
    ((List.range n).map f)[i]? = if i < n then some (f i) else none := by
  rw [List.getElem?_map]
  split
  · rename_i h
    rw [List.getElem?_range h]
    rfl
  · rename_i h
    rw [List.getElem?_eq_none (by simpa using Nat.le_of_not_lt h)]
    rfl

theorem rsiGains_length (data : List ℚ) : (rsiGains data).length = data.length := by
  cases data with
  | nil => simp [rsiGains]
  | cons x rest => simp [rsiGains, pyDiffs]

theorem rsiLosses_length (data : List ℚ) : (rsiLosses data).length = data.length := by
  cases data with
  | nil => simp [rsiLosses]
  | cons x rest => simp [rsiLosses, pyDiffs]

theorem rsiAvgGain_length (data : List ℚ) (p : ℕ) :
    (rsiAvgGain data p).length = data.length := by
  unfold rsiAvgGain ewmAdjTrue
  rw [maskMinPeriods_length]
  rw [ewmAdjTrueAux_length, rsiGains_length]

theorem rsiAvgLoss_length (data : List ℚ) (p : ℕ) :
    (rsiAvgLoss data p).length = data.length := by
  unfold rsiAvgLoss ewmAdjTrue
  rw [maskMinPeriods_length]
  rw [ewmAdjTrueAux_length, rsiLosses_length]

theorem kdjKVals_length (m1 : ℕ) (rs : List ℚ) : (kdjKVals m1 rs).length = rs.length := by
  cases rs with
  | nil => simp [kdjKVals]
  | cons r rest => simp [kdjKVals, length_scanl']

theorem kdjDVals_length (m2 : ℕ) (ks : List ℚ) : (kdjDVals m2 ks).length = ks.length := by
  cases ks with
  | nil => simp [kdjDVals]
  | cons k rest => simp [kdjDVals, length_scanl']

/-- Claim C9: every indicator function returns series exactly as long as its
input, with null (never omitted) entries at every position before the
indicator's minimum lookback: `w-1` for the moving average, `p-1` for RSI and
both Bollinger guards, `L-1` (macd line) and `(L-1)+(g-1)` (signal and
histogram) for MACD, and `n-1` for the three KDJ lines. -/
theorem c9_length_invariant_and_null_padding :
    (∀ (data : List (Option ℚ)) (w : ℕ), 1 ≤ w →
      (calculate_moving_average data w).length = data.length ∧
      ∀ i, i + 1 < w → (calculate_moving_average data w).getD i none = none) ∧
    (∀ (data : List ℚ) (p : ℕ), 1 ≤ p →
      (calculate_rsi data p).length = data.length ∧
      ∀ i, i + 1 < p → (calculate_rsi data p).getD i none = none) ∧
    (∀ (sq : ℚ → ℚ) (data : List (Option ℚ)) (p : ℕ) (k : ℚ), 1 ≤ p →
      ((calculate_bollinger_bands sq data p k).1.length = data.length ∧
        (calculate_bollinger_bands sq data p k).2.1.length = data.length ∧
        (calculate_bollinger_bands sq data p k).2.2.length = data.length) ∧
      ∀ i, i + 1 < p →
        (calculate_bollinger_bands sq data p k).1.getD i none = none ∧
        (calculate_bollinger_bands sq data p k).2.1.getD i none = none ∧
        (calculate_bollinger_bands sq data p k).2.2.getD i none = none) ∧
    (∀ (closes : List ℚ) (s L g : ℕ), 1 ≤ s → s ≤ L → 1 ≤ g →
      ((calculate_macd closes s L g).1.length = closes.length ∧
        (calculate_macd closes s L g).2.1.length = closes.length ∧
        (calculate_macd closes s L g).2.2.length = closes.length) ∧
      (∀ i, i + 1 < L → (calculate_macd closes s L g).1.getD i none = none) ∧
      (∀ i, i + 2 < L + g →
        (calculate_macd closes s L g).2.1.getD i none = none ∧
        (calculate_macd closes s L g).2.2.getD i none = none)) ∧
    (∀ (highs lows closes : List ℚ) (n m1 m2 : ℕ), 1 ≤ n →
      ((calculate_kdj highs lows closes n m1 m2).1.length = closes.length ∧
        (calculate_kdj highs lows closes n m1 m2).2.1.length = closes.length ∧
        (calculate_kdj highs lows closes n m1 m2).2.2.length = closes.length) ∧
      ∀ i, i + 1 < n →
        (calculate_kdj highs lows closes n m1 m2).1.getD i none = none ∧
        (calculate_kdj highs lows closes n m1 m2).2.1.getD i none = none ∧
        (calculate_kdj highs lows closes n m1 m2).2.2.getD i none = none) := by
  refine ⟨?_, ?_, ?_, ?_, ?_⟩
  · -- moving average
    intro data w hw
    unfold calculate_moving_average
    split
    · exact ⟨by simp, fun i _ => replicate_getD_none _ _⟩
    · constructor
      · simp
      · intro i hi
        refine getD_none_of_getElem? _ _ ?_
        rw [range_map_getElem?]
        split
        · left
          congr 1
          simp [rollingMeanAt, hi]
        · right
          rfl
  · -- rsi
    intro data p hp
    unfold calculate_rsi
    split
    · exact ⟨by simp, fun i _ => replicate_getD_none _ _⟩
    · constructor
      · simp [rsiAvgGain_length, rsiAvgLoss_length]
      · intro i hi
        refine getD_none_of_getElem? _ _ ?_
        by_cases hlen : i < data.length
        · left
          rw [List.getElem?_zipWith]
          have h1 := ewmMasked_getElem? (1 / (p : ℚ)) p (rsiGains data) i
            (by rw [rsiGains_length]; exact hlen)
          have h2 := ewmMasked_getElem? (1 / (p : ℚ)) p (rsiLosses data) i
            (by rw [rsiLosses_length]; exact hlen)
          unfold rsiAvgGain rsiAvgLoss
          rw [h1, h2, if_pos hi]
        · right
          rw [List.getElem?_eq_none]
          simp [rsiAvgGain_length, rsiAvgLoss_length]
          omega
  · -- bollinger bands
    intro sq data p k hp
    unfold calculate_bollinger_bands
    split
    · exact ⟨⟨by simp, by simp, by simp⟩,
        fun i _ => ⟨replicate_getD_none _ _, replicate_getD_none _ _, replicate_getD_none _ _⟩⟩
    · constructor
      · refine ⟨by simp, by simp, by simp⟩
      · intro i hi
        have hmid : ((List.range data.length).map (rollingMeanAt data p))[i]? =
            some none ∨ ((List.range data.length).map (rollingMeanAt data p))[i]? = none := by
          rw [range_map_getElem?]
          split
          · left
            congr 1
            simp [rollingMeanAt, hi]
          · right
            rfl
        refine ⟨getD_none_of_getElem? _ _ hmid, ?_, ?_⟩
        · refine getD_none_of_getElem? _ _ ?_
          rw [List.getElem?_zipWith]
          rcases hmid with h | h <;> rw [h]
          · cases ((List.range data.length).map (rollingStdAt sq data p))[i]? with
            | none => exact Or.inr rfl
            | some b => exact Or.inl rfl
          · exact Or.inr rfl
        · refine getD_none_of_getElem? _ _ ?_
          rw [List.getElem?_zipWith]
          rcases hmid with h | h <;> rw [h]
          · cases ((List.range data.length).map (rollingStdAt sq data p))[i]? with
            | none => exact Or.inr rfl
            | some b => exact Or.inl rfl
          · exact Or.inr rfl
  · -- macd
    intro closes s L g hs hsL hg
    have hmax : max s L = L := Nat.max_eq_right hsL
    by_cases hshort : closes = [] ∨ closes.length < L
    · unfold calculate_macd
      rw [if_pos hshort]
      exact ⟨⟨by simp, by simp, by simp⟩,
        fun i _ => replicate_getD_none _ _,
        fun i _ => ⟨replicate_getD_none _ _, replicate_getD_none _ _⟩⟩
    · have hlen : L ≤ closes.length := by
        push_neg at hshort
        omega
      have hlead := macd_lead closes s L hs (by omega) (by omega)
      rw [hmax] at hlead
      obtain ⟨u, hu, hulen⟩ := macd_tail_eq_map closes s L hs (by omega) (by omega)
      rw [hmax] at hu hulen
      have hsigeq : macdSignalOf closes s L g =
          List.replicate (L - 1) none ++
            maskMinPeriods g (emaAdjFalse (2 / ((g : ℚ) + 1)) u) := by
        unfold macdSignalOf
        simp only [hlead, hu, filterMap_id_map_some]
      have hsiglen : (macdSignalOf closes s L g).length = closes.length := by
        rw [hsigeq]
        simp only [List.length_append, List.length_replicate, maskMinPeriods_length,
          emaAdjFalse_length, hulen]
        omega
      have hmacdnone : ∀ i, i + 1 < L → (macdLineOf closes s L).getD i none = none := by
        intro i hi
        refine getD_none_of_getElem? _ _ ?_
        by_cases hil : i < closes.length
        · left
          obtain ⟨z, hz, he⟩ := macdLineOf_getElem? closes s L i hil
          rw [hz, he.mpr (by omega)]
        · right
          rw [List.getElem?_eq_none]
          rw [macdLineOf_length]
          omega
      have hsignone : ∀ i, i + 2 < L + g → (macdSignalOf closes s L g).getD i none = none := by
        intro i hi
        refine getD_none_of_getElem? _ _ ?_
        rw [hsigeq]
        by_cases hc1 : i < L - 1
        · left
          rw [List.getElem?_append_left (by simpa using hc1), List.getElem?_replicate,
            if_pos hc1]
        · push_neg at hc1
          by_cases hc2 : i - (L - 1) < u.length
          · left
            rw [List.getElem?_append_right (by simpa using hc1)]
            simp only [List.length_replicate]
            obtain ⟨y, hy, hye⟩ := maskedEma_getElem? (2 / ((g : ℚ) + 1)) g u (i - (L - 1)) hc2
            rw [hy, hye.mpr (by omega)]
          · right
            rw [List.getElem?_eq_none]
            simp only [List.length_append, List.length_replicate, maskMinPeriods_length,
              emaAdjFalse_length]
            omega
      unfold calculate_macd
      rw [if_neg hshort]
      refine ⟨⟨macdLineOf_length closes s L, hsiglen, ?_⟩, hmacdnone, ?_⟩
      · simp only [List.length_zipWith, macdLineOf_length, hsiglen]
        omega
      · intro i hi
        refine ⟨hsignone i hi, ?_⟩
        refine getD_none_of_getElem? _ _ ?_
        by_cases hil : i < closes.length
        · left
          rw [List.getElem?_zipWith]
          have h1 : (macdSignalOf closes s L g).getD i none = none := hsignone i hi
          rw [List.getD_eq_getElem?_getD] at h1
          obtain ⟨ys, hys⟩ : ∃ ys, (macdSignalOf closes s L g)[i]? = some ys :=
            ⟨(macdSignalOf closes s L g).get ⟨i, by omega⟩, List.getElem?_eq_getElem (by omega)⟩
          rw [hys] at h1
          simp at h1
          subst h1
          rw [hys]
          obtain ⟨z, hz, _⟩ := macdLineOf_getElem? closes s L i hil
          rw [hz]
          cases z <;> rfl
        · right
          rw [List.getElem?_eq_none]
          simp only [List.length_zipWith, macdLineOf_length, hsiglen]
          omega
  · -- kdj
    intro highs lows closes n m1 m2 hn
    by_cases hguard : highs = [] ∨ lows = [] ∨ closes = [] ∨ closes.length < n
    · have he : calculate_kdj highs lows closes n m1 m2 =
          (List.replicate closes.length none, List.replicate closes.length none,
            List.replicate closes.length none) := by
        simp only [calculate_kdj]
        rw [if_pos hguard]
      rw [he]
      exact ⟨⟨by simp, by simp, by simp⟩,
        fun i _ => ⟨replicate_getD_none _ _, replicate_getD_none _ _, replicate_getD_none _ _⟩⟩
    · have he : calculate_kdj highs lows closes n m1 m2 =
          (List.replicate (n - 1) none ++
            (kdjKVals m1
              (rsvAux highs lows closes n (n - 1) (closes.length - (n - 1)) none)).map some,
           List.replicate (n - 1) none ++
            (kdjDVals m2 (kdjKVals m1
              (rsvAux highs lows closes n (n - 1) (closes.length - (n - 1)) none))).map some,
           List.replicate (n - 1) none ++
            (List.zipWith (fun k d => 3 * k - 2 * d)
              (kdjKVals m1
                (rsvAux highs lows closes n (n - 1) (closes.length - (n - 1)) none))
              (kdjDVals m2 (kdjKVals m1
                (rsvAux highs lows closes n (n - 1)
                  (closes.length - (n - 1)) none)))).map some) := by
        simp only [calculate_kdj]
        rw [if_neg hguard]
      rw [he]
      push_neg at hguard
      obtain ⟨-, -, -, h4g⟩ := hguard
      have hnlen : n ≤ closes.length := by omega
      have hrl : (rsvAux highs lows closes n (n - 1) (closes.length - (n - 1)) none).length =
          closes.length - (n - 1) := rsvAux_length _ _ _ _ _ _ _
      have hkl : (kdjKVals m1
          (rsvAux highs lows closes n (n - 1) (closes.length - (n - 1)) none)).length =
          closes.length - (n - 1) := by
        rw [kdjKVals_length, hrl]
      have hdl : (kdjDVals m2 (kdjKVals m1
          (rsvAux highs lows closes n (n - 1) (closes.length - (n - 1)) none))).length =
          closes.length - (n - 1) := by
        rw [kdjDVals_length, hkl]
      constructor
      · refine ⟨?_, ?_, ?_⟩ <;>
        · simp only [List.length_append, List.length_replicate, List.length_map,
            List.length_zipWith, hkl, hdl, hrl]
          omega
      · intro i hi
        have hrep : ∀ (l : List ℚ),
            (List.replicate (n - 1) (none : Option ℚ) ++ l.map some).getD i none = none := by
          intro l
          refine getD_none_of_getElem? _ _ ?_
          by_cases hc : i < n - 1
          · left
            rw [List.getElem?_append_left (by simpa using hc), List.getElem?_replicate,
              if_pos hc]
          · right
            omega
        exact ⟨hrep _, hrep _, by
          refine getD_none_of_getElem? _ _ ?_
          by_cases hc : i < n - 1
          · left
            rw [List.getElem?_append_left (by simpa using hc), List.getElem?_replicate,
              if_pos hc]
          · right
            omega⟩

/-- Witness for `c9_length_invariant_and_null_padding`, instantiating each
conjunct at a concrete input. -/
theorem c9_length_invariant_and_null_padding_witness :
    ((calculate_moving_average [some 1, some 2, some 3] 2).length =
        ([some 1, some 2, some 3] : List (Option ℚ)).length ∧
      ∀ i, i + 1 < 2 → (calculate_moving_average [some 1, some 2, some 3] 2).getD i none = none) ∧
    ((calculate_rsi [1, 2, 3] 2).length = ([1, 2, 3] : List ℚ).length ∧
      ∀ i, i + 1 < 2 → (calculate_rsi [1, 2, 3] 2).getD i none = none) ∧
    (((calculate_kdj [1, 2, 3] [0, 1, 2] [1, 2, 3] 2 3 3).1.length =
        ([1, 2, 3] : List ℚ).length ∧
      (calculate_kdj [1, 2, 3] [0, 1, 2] [1, 2, 3] 2 3 3).2.1.length =
        ([1, 2, 3] : List ℚ).length ∧
      (calculate_kdj [1, 2, 3] [0, 1, 2] [1, 2, 3] 2 3 3).2.2.length =
        ([1, 2, 3] : List ℚ).length) ∧
      ∀ i, i + 1 < 2 →
        (calculate_kdj [1, 2, 3] [0, 1, 2] [1, 2, 3] 2 3 3).1.getD i none = none ∧
        (calculate_kdj [1, 2, 3] [0, 1, 2] [1, 2, 3] 2 3 3).2.1.getD i none = none ∧
        (calculate_kdj [1, 2, 3] [0, 1, 2] [1, 2, 3] 2 3 3).2.2.getD i none = none) :=
  ⟨c9_length_invariant_and_null_padding.1 [some 1, some 2, some 3] 2 (by decide),
    c9_length_invariant_and_null_padding.2.1 [1, 2, 3] 2 (by decide),
    c9_length_invariant_and_null_padding.2.2.2.2 [1, 2, 3] [0, 1, 2] [1, 2, 3] 2 3 3
      (by decide)⟩

/-! ## Engine-level lemmas -/

/-- The preparation pipeline succeeded. -/
def prepIsOk : Prep → Bool
  | Prep.ok _ => true
  | _ => false

/-- The prepared data of a successful pipeline (junk default otherwise). -/
def prepOf : Prep → PrepData
  | Prep.ok p => p
  | _ =>
    { bars := [], dates := [], highsQ := [], lowsQ := [], closesQ := [],
      latestClose := 0, volsQ := [], histOhlcv := [] }

/-- The display stage did not return early. -/
def displayOk : EngineResult ⊕ CalcState → Bool
  | Sum.inr _ => true
  | Sum.inl _ => false

/-- The state of a completed display stage (junk default otherwise). -/
def displayState : EngineResult ⊕ CalcState → CalcState
  | Sum.inr st => st
  | Sum.inl _ =>
    { values := [], bbMiddle := none, bbUpper := none, bbLower := none,
      singleRsiPeriod := none, singleRsiValue := none }

/-- Every early return of the preparation pipeline carries outlook
`DATA_FORMAT_ERROR` or `INSUFFICIENT_DATA`. -/
theorem prepareData_err_outlook (env : PyEnv) (sd : List StockItem) (tf : String)
    (r : EngineResult) (its : List StockItem)
    (h : prepareData env sd tf = (Prep.err r, its)) :
    r.outlook = ("DATA_FORMAT_ERROR") ∨ r.outlook = ("INSUFFICIENT_DATA") := by
  simp only [prepareData] at h
  repeat' split at h
  all_goals simp only [Prod.mk.injEq] at h
  all_goals first
  | (obtain ⟨he, -⟩ := h
     cases he
     simp [errorTemplate])
  | (obtain ⟨he, -⟩ := h
     exact absurd he (by simp))

/-- The second component of `prepareData` — the caller-visible list. -/
theorem prepareData_snd (env : PyEnv) (sd : List StockItem) (tf : String) :
    (prepareData env sd tf).2 = if sd = [] then sd else (validateItems sd).1 := by
  simp only [prepareData]
  repeat' split
  all_goals rfl

/-- `generate_signals` only mutates through the validation loop. -/
theorem generate_signals_snd (env : PyEnv) (code : String) (sd : List StockItem)
    (ff : List FFItem) (tf : String) :
    (generate_signals env code sd ff tf).2 = (prepareData env sd tf).2 := by
  unfold generate_signals
  rcases hpd : prepareData env sd tf with ⟨pr, items⟩
  cases pr <;> simp

/-! ## C10 — mutation of the caller's bar dictionaries -/

/-- A bar dictionary lacking the `turnover` key. -/
def barNoTurnover : BarDict :=
  { date := some (JVal.str ("d")), openPrice := some (JVal.num 1),
    high := some (JVal.num 1), low := some (JVal.num 1), close := some (JVal.num 1),
    volume := some (JVal.num 1), turnover := none, change_pct := some (JVal.num 1) }

/-- The same bar after the validation loop filled `turnover` with `0.0`. -/
def barFilledTurnover : BarDict :=
  { barNoTurnover with turnover := some (JVal.num 0) }

/-- Claim C10 (counterexample): on a single bar whose dict lacks the
`turnover` key, `generate_signals` writes `0.0` into the caller's dict: the
`stock_data` list after the call differs from the one passed in. -/
theorem c10_mutation_counterexample :
    (generate_signals idEnv ("c") [StockItem.dict barNoTurnover] [] ("daily")).2 =
      [StockItem.dict barFilledTurnover] ∧
    (generate_signals idEnv ("c") [StockItem.dict barNoTurnover] [] ("daily")).2 ≠
      [StockItem.dict barNoTurnover] := by
  refine ⟨by decide, by decide⟩

/-- The bar dict of this item has `turnover` and `change_pct` present and
non-null (non-dict items are unaffected by the fill). -/
def nonCoreComplete : StockItem → Bool
  | StockItem.dict b => !keyMissing b.turnover && !keyMissing b.change_pct
  | StockItem.notDict => true

/-- Claim C10 (amended): `generate_signals` leaves the caller-supplied
`stock_data` unchanged provided every bar dictionary has `turnover` and
`change_pct` present and non-null; otherwise the validation loop writes
`0.0` into those keys of the caller's dicts. -/
theorem c10_no_mutation (env : PyEnv) (code : String) (sd : List StockItem)
    (ff : List FFItem) (tf : String) (h : ∀ it ∈ sd, nonCoreComplete it = true) :
    (generate_signals env code sd ff tf).2 = sd := by
  rw [generate_signals_snd, prepareData_snd]
  have hval : ∀ (l : List StockItem), (∀ it ∈ l, nonCoreComplete it = true) →
      (validateItems l).1 = l := by
    intro l
    induction l with
    | nil => intro _; rfl
    | cons item rest ih =>
      intro hall
      have hitem := hall item (by simp)
      have hrest := fun it hit => hall it (List.mem_cons_of_mem _ hit)
      cases item with
      | notDict => rfl
      | dict b =>
        simp only [nonCoreComplete, Bool.and_eq_true, Bool.not_eq_true'] at hitem
        simp only [validateItems]
        have hb : anyKeyMissing b = coreMissing b := by
          simp only [anyKeyMissing, hitem.1, hitem.2]
          simp
        by_cases hcore : coreMissing b = true
        · rw [if_pos (by rw [hb]; exact hcore), if_pos hcore]
        · rw [if_neg (by rw [hb]; exact hcore)]
          simp [ih hrest]
  split
  · rfl
  · exact hval sd h

/-- Witness for `c10_no_mutation` on a fully populated bar. -/
theorem c10_no_mutation_witness :
    (generate_signals idEnv ("c") (demoBars 1) [] ("daily")).2 = demoBars 1 :=
  c10_no_mutation idEnv ("c") (demoBars 1) [] ("daily") (by decide)

/-! ## C2 — unknown timeframe key -/

/-- Claim C2 (counterexample): a well-formed, non-empty two-bar series with
the unknown timeframe key `bogus` yields `INSUFFICIENT_DATA` (the 20-bar
gate fires before the timeframe lookup), not `CONFIG_ERROR`. -/
theorem c2_short_series_counterexample :
    ((generate_signals idEnv ("c") (demoBars 2) [] ("bogus")).1).map (fun r => r.outlook) =
      some ("INSUFFICIENT_DATA") ∧
    ¬ ((generate_signals idEnv ("c") (demoBars 2) [] ("bogus")).1).map (fun r => r.outlook) =
      some ("CONFIG_ERROR") := by
  refine ⟨by decide, by decide⟩

/-- Claim C2 (amended): for every series that passes the data-preparation
pipeline (validation, the 20-bar gate, and numeric extraction), a timeframe
key absent from `STRATEGY_CONFIGS` yields outlook `CONFIG_ERROR` and no
exception. -/
theorem c2_unknown_timeframe_config_error (env : PyEnv) (code : String)
    (sd : List StockItem) (ff : List FFItem) (tf : String)
    (hok : prepIsOk (prepareData env sd tf).1 = true)
    (hlookup : lookupConfig tf = none) :
    ((generate_signals env code sd ff tf).1).map (fun r => r.outlook) =
      some ("CONFIG_ERROR") := by
  rcases hpd : prepareData env sd tf with ⟨pr, items⟩
  rw [hpd] at hok
  cases pr with
  | err r => simp [prepIsOk] at hok
  | exn => simp [prepIsOk] at hok
  | ok p =>
    unfold generate_signals
    rw [hpd]
    simp only [Option.map_some]
    unfold decideStage
    rw [hlookup]
    rfl

/-- Witness for `c2_unknown_timeframe_config_error`: twenty well-formed bars
with the timeframe key `bogus`. -/
theorem c2_unknown_timeframe_config_error_witness :
    ((generate_signals idEnv ("c") (demoBars 20) [] ("bogus")).1).map (fun r => r.outlook) =
      some ("CONFIG_ERROR") :=
  c2_unknown_timeframe_config_error idEnv ("c") (demoBars 20) [] ("bogus") (by decide)
    (by decide)

/-! ## C7 — weekly/monthly outlook is the single-RSI classification -/

/-- With a single-period RSI config, the display stage always completes, and
its state carries the latest value of that RSI period. -/
theorem displayStage_single_state (env : PyEnv) (p : PrepData) (ff : List FFItem)
    (cfg : IndicatorsConfig) (desc : String) (per : ℕ)
    (hrsi : cfg.rsi = some (RsiConfig.single per)) (hper : per ≠ 0) :
    displayOk (displayStage env p ff cfg desc) = true ∧
    (displayState (displayStage env p ff cfg desc)).singleRsiValue =
      singleRsiLatest p.closesQ per := by
  unfold displayStage addRsiEntries
  rw [hrsi]
  simp only [if_pos hper]
  exact ⟨rfl, rfl⟩

/-- With a single-period RSI config found for `tf`, the decision stage's
outlook is `INSUFFICIENT_DATA` or the pure function of the latest RSI
value. -/
theorem decideStage_single_aux (env : PyEnv) (p : PrepData) (ff : List FFItem) (tf : String)
    (scfg : StrategyConfig) (per : ℕ) (hlk : lookupConfig tf = some scfg)
    (hrsi : scfg.indicators.rsi = some (RsiConfig.single per)) (hper : per ≠ 0)
    (hdaily : (tf == "daily") = false) (hwm : (tf == "weekly" || tf == "monthly") = true) :
    (decideStage env p ff tf).outlook = ("INSUFFICIENT_DATA") ∨
    ∃ v, singleRsiLatest p.closesQ per = some v ∧
      (decideStage env p ff tf).outlook =
        (if v < 30 then ("BULLISH") else if v > 70 then ("BEARISH")
          else ("NEUTRAL_WAIT")) := by
  obtain ⟨hdo, hsv⟩ := displayStage_single_state env p ff scfg.indicators scfg.description
    per hrsi hper
  rcases hds : displayStage env p ff scfg.indicators scfg.description with r | st
  · rw [hds] at hdo
    simp [displayOk] at hdo
  · rw [hds] at hsv
    have hsv' : st.singleRsiValue = singleRsiLatest p.closesQ per := hsv
    simp only [decideStage, hlk, hds]
    split
    · left
      rfl
    · unfold coreOutlook
      rw [if_neg (by simp [hdaily])]
      rw [if_pos (by
        rcases (by simpa using hwm : (tf == "weekly") = true ∨ (tf == "monthly") = true)
          with h | h
        · exact Or.inl h
        · exact Or.inr h)]
      unfold weeklyMonthlyOutlook
      rw [hsv']
      cases hv : singleRsiLatest p.closesQ per with
      | none =>
        left
        rfl
      | some v =>
        right
        exact ⟨v, rfl, rfl⟩

/-- Claim C7: whenever a weekly or monthly run reaches a decision outlook
(`BULLISH` / `BEARISH` / `NEUTRAL_WAIT`), that outlook equals the pure
classification of the latest RSI(14) value of the engine's close series —
below 30 bullish, above 70 bearish, otherwise neutral — for every
environment (in particular every Bollinger square root) and every series:
the computed MA and Bollinger values never change it. -/
theorem c7_weekly_monthly_rsi_only (env : PyEnv) (code : String) (sd : List StockItem)
    (ff : List FFItem) (tf : String) (htf : tf = "weekly" ∨ tf = "monthly")
    (hdec : ((generate_signals env code sd ff tf).1).map (fun r => r.outlook) =
        some ("BULLISH") ∨
      ((generate_signals env code sd ff tf).1).map (fun r => r.outlook) =
        some ("BEARISH") ∨
      ((generate_signals env code sd ff tf).1).map (fun r => r.outlook) =
        some ("NEUTRAL_WAIT")) :
    ∃ v, singleRsiLatest (prepOf (prepareData env sd tf).1).closesQ 14 = some v ∧
      ((generate_signals env code sd ff tf).1).map (fun r => r.outlook) =
        some (if v < 30 then ("BULLISH") else if v > 70 then ("BEARISH")
          else ("NEUTRAL_WAIT")) := by
  rcases hpd : prepareData env sd tf with ⟨pr, items⟩
  cases pr with
  | err r =>
    exfalso
    have houtr := prepareData_err_outlook env sd tf r items hpd
    have hval : ((generate_signals env code sd ff tf).1).map (fun q => q.outlook) =
        some r.outlook := by
      unfold generate_signals
      rw [hpd]
      rfl
    rw [hval] at hdec
    rcases houtr with h | h <;> rw [h] at hdec <;>
      rcases hdec with h1 | h1 | h1 <;> simp at h1
  | exn =>
    exfalso
    have hval : ((generate_signals env code sd ff tf).1).map (fun q => q.outlook) = none := by
      unfold generate_signals
      rw [hpd]
      rfl
    rw [hval] at hdec
    rcases hdec with h1 | h1 | h1 <;> simp at h1
  | ok p =>
    have hval : ((generate_signals env code sd ff tf).1).map (fun q => q.outlook) =
        some (decideStage env p ff tf).outlook := by
      unfold generate_signals
      rw [hpd]
      rfl
    dsimp only [prepOf]
    rw [hval]
    rw [hval] at hdec
    have haux : (decideStage env p ff tf).outlook = ("INSUFFICIENT_DATA") ∨
        ∃ v, singleRsiLatest p.closesQ 14 = some v ∧
          (decideStage env p ff tf).outlook =
            (if v < 30 then ("BULLISH") else if v > 70 then ("BEARISH")
              else ("NEUTRAL_WAIT")) := by
      rcases htf with h | h <;> subst h
      · exact decideStage_single_aux env p ff ("weekly") weeklyStrategy 14 rfl rfl
          (by decide) (by decide) (by decide)
      · exact decideStage_single_aux env p ff ("monthly") monthlyStrategy 14 rfl rfl
          (by decide) (by decide) (by decide)
    rcases haux with h | ⟨v, hv, hout⟩
    · exfalso
      rw [h] at hdec
      rcases hdec with h1 | h1 | h1 <;> simp at h1
    · exact ⟨v, hv, by rw [hout]⟩

/-- Witness for `c7_weekly_monthly_rsi_only`: twenty strictly ascending bars
analysed weekly (RSI(14) is 100, so the decision is `BEARISH`). -/
theorem c7_weekly_monthly_rsi_only_witness :
    ∃ v, singleRsiLatest (prepOf (prepareData idEnv (demoBars 20) ("weekly")).1).closesQ 14 =
        some v ∧
      ((generate_signals idEnv ("c") (demoBars 20) [] ("weekly")).1).map (fun r => r.outlook) =
        some (if v < 30 then ("BULLISH") else if v > 70 then ("BEARISH")
          else ("NEUTRAL_WAIT")) :=
  c7_weekly_monthly_rsi_only idEnv ("c") (demoBars 20) [] ("weekly") (Or.inl rfl)
    (Or.inr (Or.inl (by decide)))

/-! ## C1 — INSUFFICIENT_DATA keeps the computed evidence -/

/-- Updating key `k` makes it present with the written value. -/
theorem dictGet_dictSet_same (m : List (String × IndEntry)) (k : String) (v : IndEntry) :
    dictGet (dictSet m k v) k = some v := by
  unfold dictGet dictSet
  split
  next hany =>
    rw [List.find?_map]
    have hpf : ((fun q : String × IndEntry => q.1 == k) ∘
        (fun q : String × IndEntry => if q.1 == k then (k, v) else q)) =
        fun q : String × IndEntry => q.1 == k := by
      funext q
      simp only [Function.comp_apply]
      by_cases h : (q.1 == k) = true
      · rw [if_pos h]
        simp [h]
      · rw [if_neg h]
    rw [hpf]
    obtain ⟨b, hbm, hpb⟩ := List.any_eq_true.mp hany
    cases hfind : m.find? (fun q => q.1 == k) with
    | none =>
      rw [List.find?_eq_none] at hfind
      exact absurd hpb (hfind b hbm)
    | some q =>
      have hq1 : q.1 = k := by simpa using List.find?_some hfind
      simp [hq1]
  next hany =>
    rw [List.find?_append]
    have hnone : m.find? (fun q => q.1 == k) = none := by
      rw [List.find?_eq_none]
      intro x hx hpx
      exact hany (List.any_eq_true.mpr ⟨x, hx, hpx⟩)
    rw [hnone]
    have hsing : List.find? (fun q : String × IndEntry => q.1 == k) [(k, v)] =
        some (k, v) := List.find?_cons_of_pos _ (by simp)
    simp [hsing]

/-- Updating a different key leaves the lookup unchanged. -/
theorem dictGet_dictSet_ne (m : List (String × IndEntry)) (k : String) (v : IndEntry)
    (k' : String) (hne : k' ≠ k) : dictGet (dictSet m k v) k' = dictGet m k' := by
  unfold dictGet dictSet
  split
  next hany =>
    rw [List.find?_map]
    have hpf : ((fun q : String × IndEntry => q.1 == k') ∘
        (fun q : String × IndEntry => if q.1 == k then (k, v) else q)) =
        fun q : String × IndEntry => q.1 == k' := by
      funext q
      simp only [Function.comp_apply]
      by_cases h : (q.1 == k) = true
      · have hq : q.1 = k := by simpa using h
        rw [if_pos h]
        simp [hq]
      · rw [if_neg h]
    rw [hpf]
    cases hfind : m.find? (fun q => q.1 == k') with
    | none => simp
    | some b =>
      have hb1 : b.1 = k' := by simpa using List.find?_some hfind
      have hbne : b.1 ≠ k := by
        rw [hb1]
        exact hne
      simp [hbne]
  next hany =>
    rw [List.find?_append]
    have hsing : List.find? (fun q : String × IndEntry => q.1 == k') [(k, v)] = none := by
      rw [List.find?_eq_none]
      intro x hx hpx
      simp at hx
      subst hx
      exact hne ((by simpa using hpx : k = k')).symm
    rw [hsing]
    cases m.find? (fun q => q.1 == k') <;> rfl

/-- A present key stays present through any further dict write. -/
theorem dictGet_isSome_preserved (m : List (String × IndEntry)) (k' : String) (v : IndEntry)
    (k : String) (h : ∃ e, dictGet m k = some e) :
    ∃ e, dictGet (dictSet m k' v) k = some e := by
  by_cases hk : k = k'
  · subst hk
    exact ⟨v, dictGet_dictSet_same m k v⟩
  · rw [dictGet_dictSet_ne m k' v k hk]
    exact h

/-- A present key stays present through the final `format_val` pass. -/
theorem dictGet_fmtValues_isSome (m : List (String × IndEntry)) (k : String) :
    (∃ e, dictGet m k = some e) → ∃ e, dictGet (fmtValues m) k = some e := by
  induction m with
  | nil =>
    intro h
    obtain ⟨e, he⟩ := h
    simp [dictGet] at he
  | cons a t ih =>
    intro h
    by_cases ha : (a.1 == k) = true
    · refine ⟨{ value := format_val a.2.value, sentiment := a.2.sentiment }, ?_⟩
      unfold dictGet fmtValues
      simp only [List.map_cons]
      rw [List.find?_cons_of_pos _ (by exact ha)]
      rfl
    · obtain ⟨e, he⟩ := h
      have ht : ∃ e, dictGet t k = some e := by
        refine ⟨e, ?_⟩
        unfold dictGet at he ⊢
        rw [List.find?_cons_of_neg _ (by exact ha)] at he
        exact he
      obtain ⟨e2, he2⟩ := ih ht
      refine ⟨e2, ?_⟩
      unfold dictGet fmtValues at he2 ⊢
      simp only [List.map_cons]
      rw [List.find?_cons_of_neg _ (by exact ha)]
      exact he2

/-- With the daily config, the display stage always completes. -/
theorem displayStage_daily_ok (env : PyEnv) (p : PrepData) (ff : List FFItem) :
    displayOk (displayStage env p ff dailyStrategy.indicators dailyStrategy.description) =
      true := rfl

/-- After the daily display loop, the `MA_5` and `MA_10` entries are always
present in the values dict (whatever their computed values). -/
theorem daily_values_has_MA (env : PyEnv) (p : PrepData) (ff : List FFItem) :
    (∃ e, dictGet (displayState (displayStage env p ff dailyStrategy.indicators
      dailyStrategy.description)).values ("MA_5") = some e) ∧
    (∃ e, dictGet (displayState (displayStage env p ff dailyStrategy.indicators
      dailyStrategy.description)).values ("MA_10") = some e) := by
  constructor
  · simp only [displayStage, displayState, addRsiEntries, dailyStrategy, addKDJEntries,
      addMACDEntries, addBBEntries, addMAEntries, DISPLAY_MA_WINDOWS, List.foldl_cons,
      List.foldl_nil]
    iterate 17 refine dictGet_isSome_preserved _ _ _ _ ?_
    exact ⟨_, dictGet_dictSet_same _ _ _⟩
  · simp only [displayStage, displayState, addRsiEntries, dailyStrategy, addKDJEntries,
      addMACDEntries, addBBEntries, addMAEntries, DISPLAY_MA_WINDOWS, List.foldl_cons,
      List.foldl_nil]
    iterate 16 refine dictGet_isSome_preserved _ _ _ _ ?_
    exact ⟨_, dictGet_dictSet_same _ _ _⟩

/-- Claim C1 (counterexample): a 10-bar series analysed with the `daily`
timeframe is cut off by the 20-bar preparation gate (analysis_engine.py line
110) before any indicator is computed: the outlook is `INSUFFICIENT_DATA`,
but `indicator_values` is the empty error-template dict — the computed
`MA_5`/`MA_10` evidence the claim promises is not returned. -/
theorem c1_short_series_counterexample :
    ((generate_signals idEnv ("c") (demoBars 10) [] ("daily")).1).map
        (fun r => (r.outlook, r.indicator_values)) =
      some (("INSUFFICIENT_DATA"), ([] : List (String × IndEntry))) ∧
    ((generate_signals idEnv ("c") (demoBars 10) [] ("daily")).1).map
        (fun r => dictGet r.indicator_values ("MA_5")) = some none := by
  refine ⟨by decide, by decide⟩

/-- Claim C1 (amended): for every series that passes the preparation pipeline
(validation, the 20-bar gate and numeric extraction) under the `daily`
timeframe, if the completeness check finds an essential indicator missing,
`generate_signals` returns `INSUFFICIENT_DATA` while keeping every computed
display entry (the full formatted values dict — in particular the `MA_5` and
`MA_10` entries are present) and the fully populated historical bundle.  A
series short of 20 bars never reaches this stage and gets the empty error
template instead. -/
theorem c1_insufficient_data_keeps_evidence (env : PyEnv) (code : String)
    (sd : List StockItem) (ff : List FFItem)
    (hok : prepIsOk (prepareData env sd ("daily")).1 = true)
    (hmiss : essentialsMissing ("daily") dailyStrategy.indicators
        (displayState (displayStage env (prepOf (prepareData env sd ("daily")).1) ff
          dailyStrategy.indicators dailyStrategy.description)) = true) :
    (generate_signals env code sd ff ("daily")).1 = some
        { outlook := ("INSUFFICIENT_DATA"),
          time_horizon_applied := dailyStrategy.description,
          latest_close := some (prepOf (prepareData env sd ("daily")).1).latestClose,
          indicator_values := fmtValues (displayState (displayStage env
            (prepOf (prepareData env sd ("daily")).1) ff dailyStrategy.indicators
            dailyStrategy.description)).values,
          config_used := some dailyStrategy.indicators,
          historical_indicators := histStage env (prepOf (prepareData env sd ("daily")).1) } ∧
    (∃ e, dictGet (fmtValues (displayState (displayStage env
        (prepOf (prepareData env sd ("daily")).1) ff dailyStrategy.indicators
        dailyStrategy.description)).values) ("MA_5") = some e) ∧
    (∃ e, dictGet (fmtValues (displayState (displayStage env
        (prepOf (prepareData env sd ("daily")).1) ff dailyStrategy.indicators
        dailyStrategy.description)).values) ("MA_10") = some e) := by
  rcases hpd : prepareData env sd ("daily") with ⟨pr, items⟩
  rw [hpd] at hok hmiss
  cases pr with
  | err r => simp [prepIsOk] at hok
  | exn => simp [prepIsOk] at hok
  | ok p =>
    dsimp only [prepOf] at hmiss ⊢
    have hgen : (generate_signals env code sd ff ("daily")).1 =
        some (decideStage env p ff ("daily")) := by
      unfold generate_signals
      rw [hpd]
    rw [hgen]
    have hlk : lookupConfig ("daily") = some dailyStrategy := rfl
    have hok2 := displayStage_daily_ok env p ff
    have hma := daily_values_has_MA env p ff
    rcases hds : displayStage env p ff dailyStrategy.indicators dailyStrategy.description
      with r | st
    · rw [hds] at hok2
      simp [displayOk] at hok2
    · rw [hds] at hmiss hma
      have hdec : decideStage env p ff ("daily") =
          { outlook := ("INSUFFICIENT_DATA"),
            time_horizon_applied := dailyStrategy.description,
            latest_close := some p.latestClose,
            indicator_values := fmtValues st.values,
            config_used := some dailyStrategy.indicators,
            historical_indicators := histStage env p } := by
        simp only [decideStage, hlk, hds]
        rw [if_pos (by exact hmiss)]
      rw [hdec]
      exact ⟨rfl, dictGet_fmtValues_isSome _ _ hma.1, dictGet_fmtValues_isSome _ _ hma.2⟩

/-- Witness for `c1_insufficient_data_keeps_evidence`: twenty well-formed bars
analysed daily (RSI(24) needs more than 24 closes, so an essential is
missing) — the result keeps the formatted values dict with its `MA_5` and
`MA_10` entries and the populated historical bundle. -/
theorem c1_insufficient_data_keeps_evidence_witness :
    (generate_signals idEnv ("c") (demoBars 20) [] ("daily")).1 = some
        { outlook := ("INSUFFICIENT_DATA"),
          time_horizon_applied := dailyStrategy.description,
          latest_close := some (prepOf (prepareData idEnv (demoBars 20) ("daily")).1).latestClose,
          indicator_values := fmtValues (displayState (displayStage idEnv
            (prepOf (prepareData idEnv (demoBars 20) ("daily")).1) [] dailyStrategy.indicators
            dailyStrategy.description)).values,
          config_used := some dailyStrategy.indicators,
          historical_indicators := histStage idEnv
            (prepOf (prepareData idEnv (demoBars 20) ("daily")).1) } ∧
    (∃ e, dictGet (fmtValues (displayState (displayStage idEnv
        (prepOf (prepareData idEnv (demoBars 20) ("daily")).1) [] dailyStrategy.indicators
        dailyStrategy.description)).values) ("MA_5") = some e) ∧
    (∃ e, dictGet (fmtValues (displayState (displayStage idEnv
        (prepOf (prepareData idEnv (demoBars 20) ("daily")).1) [] dailyStrategy.indicators
        dailyStrategy.description)).values) ("MA_10") = some e) :=
  c1_insufficient_data_keeps_evidence idEnv ("c") (demoBars 20) [] (by decide) (by decide)

end StockIndicator
